import Mathlib

/-!
# web-k9 streaming core: shallow embedding and verified properties

The definitions below embed the streaming handlers of
`backend/pkg/handlers/stream_handler.go`, the watch plumbing and the discovery
helpers of `backend/pkg/k8s/client.go`, and the per-kind request handlers of
`backend/pkg/handlers/resource_handler.go`.

Modelling conventions.

* A Go `[]byte` is a `List Byte`; `copy`, slicing `x[:n]` and `x[n:]` are
  `List.take` / `List.drop`.
* A `*websocket.Conn` is a value of type `Conn` threaded through every call:
  it carries the connection's query parameters, the messages the client will
  still deliver, the scripted outcome of each future write, and the log of
  every write attempted so far.
* A Go `error` is an `Option String` (`none` is `nil`, `some t` an error whose
  `Error()` text is `t`).
* The remote cluster is not executed: every request made to it is appended to
  a trace of `RemoteCall`s, and what it answers is a parameter.
-/

namespace WebK9

/-! ## Bytes and the websocket connection -/

/-- One element of a Go byte slice. -/
abbrev Byte := UInt8

deriving instance DecidableEq for Except

/-- Go's conversion `[]byte(s)`: the UTF-8 bytes of a string. -/
def bytesOf (s : String) : List Byte := s.data.flatMap String.utf8EncodeChar

/-- Go's builtin `copy(dst, src)`: copies `min(len(dst), len(src))` elements
from the front of `src` over the front of `dst`; returns the count and the
updated destination. -/
def copy (dst src : List Byte) : Nat × List Byte :=
  let n := min dst.length src.length
  (n, src.take n ++ dst.drop n)

/-- A resource document carried by a change notification; the program never
looks inside it. -/
structure Obj where
  doc : String
deriving DecidableEq, Repr

/-- The struct `ResourceEvent` of `client.go`; its fields `Type` and `Object`
appear under their JSON names `type` and `object`. -/
structure ResourceEvent where
  type : String
  object : Obj
deriving DecidableEq, Repr

/-- What a handler can hand to the websocket for sending:
`WriteMessage(websocket.TextMessage, payload)`, `WriteJSON(fiber.Map{"error": msg})`
and `WriteJSON(event)`. -/
inductive Frame where
  | text (payload : List Byte)
  | errorJSON (msg : String)
  | eventJSON (ev : ResourceEvent)
deriving DecidableEq, Repr

/-- State of one websocket connection.

* `query`: the query parameters of the upgrade request;
* `inbox`: the messages `ReadMessage` will still deliver, in order;
* `closeErr`: the error `ReadMessage` reports once `inbox` is exhausted;
* `writeScript`: outcome of each future write (`none` accepted, `some e`
  failed with `e`); writes beyond the script are accepted;
* `attempts`: every write attempted so far with its outcome, oldest first. -/
structure Conn where
  query : List (String × String)
  inbox : List (List Byte)
  closeErr : String
  writeScript : List (Option String)
  attempts : List (Frame × Option String)
deriving DecidableEq, Repr

/-- Frames the transport accepted, oldest first. -/
def Conn.sent (c : Conn) : List Frame :=
  (c.attempts.filter (fun a => a.2.isNone)).map (fun a => a.1)

/-- Frames handed to the transport (accepted or not), oldest first. -/
def Conn.attempted (c : Conn) : List Frame :=
  c.attempts.map (fun a => a.1)

/-- The transport accepts every future write. -/
def Conn.acceptsAll (c : Conn) : Prop :=
  ∀ r ∈ c.writeScript, r = none

instance (c : Conn) : Decidable c.acceptsAll := by
  unfold Conn.acceptsAll; infer_instance

/-- One write on the transport: consumes one scripted outcome and logs the
attempt. -/
def Conn.write (c : Conn) (f : Frame) : Conn × Option String :=
  match c.writeScript with
  | [] => ({ c with attempts := c.attempts ++ [(f, none)] }, none)
  | r :: rest => ({ c with writeScript := rest, attempts := c.attempts ++ [(f, r)] }, r)

/-- `c.WriteMessage(websocket.TextMessage, p)`. -/
def Conn.WriteMessage (c : Conn) (p : List Byte) : Conn × Option String :=
  c.write (Frame.text p)

/-- `c.WriteJSON(fiber.Map{"error": msg})`. -/
def Conn.WriteJSONError (c : Conn) (msg : String) : Conn × Option String :=
  c.write (Frame.errorJSON msg)

/-- `c.WriteJSON(event)`. -/
def Conn.WriteJSONEvent (c : Conn) (ev : ResourceEvent) : Conn × Option String :=
  c.write (Frame.eventJSON ev)

/-- `c.ReadMessage()`: the next client message, or the close error when the
client delivers nothing more. -/
def Conn.ReadMessage (c : Conn) : Conn × Except String (List Byte) :=
  match c.inbox with
  | [] => (c, Except.error c.closeErr)
  | m :: rest => ({ c with inbox := rest }, Except.ok m)

/-- `c.Query(key, defaultValue)` of the websocket connection: the value stored
for the query parameter, the default when the parameter is absent. A call
without default, `c.Query(key)`, is `c.Query key ""`. -/
def Conn.Query (c : Conn) (key : String) (defaultValue : String) : String :=
  match c.query.lookup key with
  | some v => v
  | none => defaultValue

/-! ## The exec bridge: `streamHandler` -/

/-- The struct `streamHandler`: the connection and the residual buffer. -/
structure streamHandler where
  conn : Conn
  leftover : List Byte
deriving DecidableEq, Repr

/-- Result of one `Read`: the handler afterwards, the caller's buffer
afterwards, and the returned pair `(n, err)`. -/
structure ReadResult where
  s : streamHandler
  p : List Byte
  n : Nat
  err : Option String
deriving DecidableEq, Repr

/-- The bytes a read delivered to its caller: `p[:n]`. -/
def ReadResult.bytes (r : ReadResult) : List Byte := r.p.take r.n

/-- `func (s *streamHandler) Read(p []byte) (n int, err error)`. -/
def streamHandler.Read (s : streamHandler) (p : List Byte) : ReadResult :=
  if s.leftover.length > 0 then
    let (n, p') := copy p s.leftover
    { s := { s with leftover := s.leftover.drop n }, p := p', n := n, err := none }
  else
    match s.conn.ReadMessage with
    | (conn', Except.error err) =>
      { s := { s with conn := conn' }, p := p, n := 0, err := some err }
    | (conn', Except.ok msg) =>
      let (n, p') := copy p msg
      let s' : streamHandler := { s with conn := conn' }
      { s := if n < msg.length then { s' with leftover := msg.drop n } else s',
        p := p', n := n, err := none }

/-- Result of one `Write`: the handler afterwards and the returned pair. -/
structure WriteResult where
  s : streamHandler
  n : Nat
  err : Option String
deriving DecidableEq, Repr

/-- `func (s *streamHandler) Write(p []byte) (n int, err error)`. -/
def streamHandler.Write (s : streamHandler) (p : List Byte) : WriteResult :=
  match s.conn.WriteMessage p with
  | (conn', some err) => { s := { s with conn := conn' }, n := 0, err := some err }
  | (conn', none) => { s := { s with conn := conn' }, n := p.length, err := none }

/-- A caller issuing one `Read` per buffer of `bufs`, in order, and collecting
the bytes each read delivered. Returns the final handler and the
concatenation of the delivered bytes. -/
def readAll (s : streamHandler) : List (List Byte) → streamHandler × List Byte
  | [] => (s, [])
  | p :: bufs =>
    let r := s.Read p
    let rest := readAll r.s bufs
    (rest.1, r.bytes ++ rest.2)

/-- A connection with the given pending client messages and nothing else. -/
def Conn.ofInbox (msgs : List (List Byte)) : Conn :=
  { query := [], inbox := msgs, closeErr := "closed", writeScript := [], attempts := [] }

/-! ## The cluster client and the kind table of `getListerWatcher` -/

/-- The typed accessors of the clientset used by `getListerWatcher`
(`CoreV1().Pods`, `AppsV1().Deployments`, ...). -/
inductive Api where
  | Pods
  | Deployments
  | Services
  | StatefulSets
  | Namespaces
  | Nodes
  | ConfigMaps
  | Secrets
  | Ingresses
  | PersistentVolumes
  | PersistentVolumeClaims
deriving DecidableEq, Repr

/-- The fields of `metav1.ListOptions` the program sets. -/
structure ListOptions where
  LabelSelector : String
  FieldSelector : String
deriving DecidableEq, Repr

/-- The fields of `v1.PodLogOptions` the program sets (`TailLines` is a
pointer: `none` is nil). -/
structure PodLogOptions where
  Container : String
  Follow : Bool
  TailLines : Option Int
deriving DecidableEq, Repr

/-- The REST request assembled by `ExecShell`; `params` holds the `Param`
calls in order. -/
structure Request where
  verb : String
  resource : String
  name : String
  ns : String
  subResource : String
  params : List (String × String)
deriving DecidableEq, Repr

/-- `req.Param(key, value)`. -/
def Request.Param (r : Request) (key value : String) : Request :=
  { r with params := r.params ++ [(key, value)] }

/-- The `remotecommand.StreamOptions` of `ExecShell`: for each stream whether
the bridge handler is attached to it, and the TTY flag. -/
structure StreamOptions where
  Stdin : Bool
  Stdout : Bool
  Stderr : Bool
  Tty : Bool
deriving DecidableEq, Repr

/-- A `cache.ListWatch` as built by `getListerWatcher`. Its two closures differ
between the cases only in the accessor they call and in whether that accessor
takes the namespace, so the closure is represented by what it captured:
`ns = none` for the cluster-scoped accessors `Namespaces()`, `Nodes()`,
`PersistentVolumes()`. -/
structure ListWatch where
  api : Api
  ns : Option String
  labelSelector : String
  fieldSelector : String
deriving DecidableEq, Repr

/-- Every request the handlers can make to the cluster or to the client
libraries that talk to it. -/
inductive RemoteCall where
  | list (api : Api) (ns : Option String) (options : ListOptions)
  | watch (api : Api) (ns : Option String) (options : ListOptions)
  | newInformer (lw : ListWatch)
  | controllerRun
  | logStream (ns pod : String) (opts : PodLogOptions)
  | logRead
  | logStreamClose
  | newSPDYExecutor (method : String) (url : Request)
  | execStream (opts : StreamOptions)
  | get (api : Api) (ns : Option String) (name : String)
  | delete (api : Api) (ns : Option String) (name : String)
  | listEvents (ns : String) (options : ListOptions)
deriving DecidableEq, Repr

/-- The closure `ListFunc` of a `ListWatch`: overwrites the two selectors of
the options and lists through the captured accessor. -/
def ListWatch.ListFunc (lw : ListWatch) (options : ListOptions) : RemoteCall :=
  RemoteCall.list lw.api lw.ns
    { options with LabelSelector := lw.labelSelector, FieldSelector := lw.fieldSelector }

/-- The closure `WatchFunc` of a `ListWatch`. -/
def ListWatch.WatchFunc (lw : ListWatch) (options : ListOptions) : RemoteCall :=
  RemoteCall.watch lw.api lw.ns
    { options with LabelSelector := lw.labelSelector, FieldSelector := lw.fieldSelector }

/-- `func (cm *ClientManager) getListerWatcher(ctx, resourceType, namespace,
labelSelector, fieldSelector) (cache.ListerWatcher, error)`. Building the
closures calls nothing. -/
def getListerWatcher (resourceType ns labelSelector fieldSelector : String) :
    Except String ListWatch :=
  match resourceType with
  | "pods" => Except.ok ⟨Api.Pods, some ns, labelSelector, fieldSelector⟩
  | "deployments" => Except.ok ⟨Api.Deployments, some ns, labelSelector, fieldSelector⟩
  | "services" => Except.ok ⟨Api.Services, some ns, labelSelector, fieldSelector⟩
  | "statefulsets" => Except.ok ⟨Api.StatefulSets, some ns, labelSelector, fieldSelector⟩
  | "namespaces" | "ns" => Except.ok ⟨Api.Namespaces, none, labelSelector, fieldSelector⟩
  | "nodes" | "no" => Except.ok ⟨Api.Nodes, none, labelSelector, fieldSelector⟩
  | "configmaps" | "cm" => Except.ok ⟨Api.ConfigMaps, some ns, labelSelector, fieldSelector⟩
  | "secrets" | "sec" => Except.ok ⟨Api.Secrets, some ns, labelSelector, fieldSelector⟩
  | "ingresses" | "ing" => Except.ok ⟨Api.Ingresses, some ns, labelSelector, fieldSelector⟩
  | "persistentvolumes" | "pv" =>
    Except.ok ⟨Api.PersistentVolumes, none, labelSelector, fieldSelector⟩
  | "persistentvolumeclaims" | "pvc" =>
    Except.ok ⟨Api.PersistentVolumeClaims, some ns, labelSelector, fieldSelector⟩
  | _ => Except.error ("unsupported resource type: " ++ resourceType)

/-- The case labels of the switch of `getListerWatcher`. -/
def acceptedTypes : List String :=
  ["pods", "deployments", "services", "statefulsets", "namespaces", "ns", "nodes", "no",
   "configmaps", "cm", "secrets", "sec", "ingresses", "ing", "persistentvolumes", "pv",
   "persistentvolumeclaims", "pvc"]

/-! ## Watch mode: `WatchResources` and `StreamResources` -/

/-- A change notification the informer delivers to its event handlers. -/
inductive Notification where
  | add (obj : Obj)
  | update (oldObj newObj : Obj)
  | delete (obj : Obj)
deriving DecidableEq, Repr

/-- The event `AddFunc` sends on `eventChan`. -/
def AddFunc (obj : Obj) : ResourceEvent := { type := "ADDED", object := obj }

/-- The event `UpdateFunc` sends on `eventChan`. -/
def UpdateFunc (_oldObj newObj : Obj) : ResourceEvent := { type := "MODIFIED", object := newObj }

/-- The event `DeleteFunc` sends on `eventChan`. -/
def DeleteFunc (obj : Obj) : ResourceEvent := { type := "DELETED", object := obj }

/-- The `cache.ResourceEventHandlerFuncs` installed by `WatchResources`,
applied to one notification. -/
def handle : Notification → ResourceEvent
  | Notification.add obj => AddFunc obj
  | Notification.update oldObj newObj => UpdateFunc oldObj newObj
  | Notification.delete obj => DeleteFunc obj

/-- The contents of `eventChan` over time. The informer invokes its handlers
one notification at a time and each handler performs one send on the
unbuffered channel, so the channel carries the handled notifications in
delivery order. -/
def eventChan (notifications : List Notification) : List ResourceEvent :=
  notifications.map handle

/-- Effect of a call of `WatchResources`: the remote calls made, the events
`eventChan` will carry from then on, and the returned error. -/
structure WatchResult where
  calls : List RemoteCall
  chan : List ResourceEvent
  err : Option String
deriving DecidableEq, Repr

/-- `func (cm *ClientManager) WatchResources(ctx, resourceType, namespace,
labelSelector, fieldSelector, eventChan) error`; `informer` gives the
notifications the informer built on a list/watch pair will deliver to its
handlers once the controller runs. -/
def WatchResources (informer : ListWatch → List Notification)
    (resourceType ns labelSelector fieldSelector : String) : WatchResult :=
  match getListerWatcher resourceType ns labelSelector fieldSelector with
  | Except.error err => { calls := [], chan := [], err := some err }
  | Except.ok listWatch =>
    { calls := [RemoteCall.newInformer listWatch, RemoteCall.controllerRun],
      chan := eventChan (informer listWatch), err := none }

/-- The two client handles of `k8s.ClientManager` the stream handlers test for
nil; `true` is non-nil. -/
structure ClientManager where
  Config : Bool
  Clientset : Bool
deriving DecidableEq, Repr

/-- The struct `Handler`. -/
structure Handler where
  K8sManager : ClientManager
deriving DecidableEq, Repr

/-- How a handler run ends: it returned, or it is blocked for ever on a
receive or read that nothing will answer any more. -/
inductive Exit where
  | returned
  | blocked
deriving DecidableEq, Repr

/-- Observable result of a handler run: the connection afterwards, the remote
calls made in order, whether the deferred `cancel()` ran, and how it ended. -/
structure Run where
  conn : Conn
  calls : List RemoteCall
  cancelled : Bool
  exit : Exit
deriving DecidableEq, Repr

/-- The loop `for { event := <-eventChan; if err := c.WriteJSON(event); err != nil { break } }`
over the events the channel will carry. -/
def relayLoop (c : Conn) : List ResourceEvent → Conn × Exit
  | [] => (c, Exit.blocked)
  | event :: events =>
    match c.WriteJSONEvent event with
    | (c', some _) => (c', Exit.returned)
    | (c', none) => relayLoop c' events

/-- `func (h *Handler) StreamResources(c *websocket.Conn)`. -/
def StreamResources (h : Handler) (informer : ListWatch → List Notification) (c : Conn) : Run :=
  if h.K8sManager.Clientset = false then
    { conn := (c.WriteJSONError "kubeconfig not loaded").1, calls := [], cancelled := false,
      exit := Exit.returned }
  else
    let resourceType := c.Query "type" "pods"
    let ns := c.Query "namespace" "default"
    let labelSelector := c.Query "labelSelector" ""
    let fieldSelector := c.Query "fieldSelector" ""
    let w := WatchResources informer resourceType ns labelSelector fieldSelector
    match w.err with
    | some err =>
      { conn := (c.WriteJSONError err).1, calls := w.calls, cancelled := true,
        exit := Exit.returned }
    | none =>
      let (c', exit) := relayLoop c w.chan
      { conn := c', calls := w.calls, cancelled := decide (exit = Exit.returned), exit := exit }

/-! ## Log mode: `StreamLogs` -/

/-- An error value returned by a read of the log stream: the sentinel `io.EOF`
or any other error, with its text. -/
inductive ReadError where
  | EOF
  | other (text : String)
deriving DecidableEq, Repr

/-- `err.Error()`. -/
def ReadError.Error : ReadError → String
  | ReadError.EOF => "EOF"
  | ReadError.other text => text

/-- What one `stream.Read(buf)` yields: the bytes it stored at the front of
`buf` (their number is the returned `n`) and the returned error. -/
structure ReadOutcome where
  data : List Byte
  err : Option ReadError
deriving DecidableEq, Repr

/-- The effect of `n, err := stream.Read(buf)` on the buffer: the count `n`
and the buffer holding the new bytes at its front. -/
def readInto (buf : List Byte) (o : ReadOutcome) : Nat × List Byte :=
  (o.data.length, o.data ++ buf.drop o.data.length)

/-- Size of the read buffer of `StreamLogs`: `make([]byte, 4096)`. -/
def logBufSize : Nat := 4096

/-- Result of the read loop of `StreamLogs`. -/
structure LoopResult where
  conn : Conn
  calls : List RemoteCall
  exit : Exit
deriving DecidableEq, Repr

/-- The read loop of `StreamLogs` over the outcomes the stream's successive
reads will have; when the stream has nothing more to yield the read blocks. -/
def logLoop (c : Conn) (buf : List Byte) : List ReadOutcome → LoopResult
  | [] => { conn := c, calls := [], exit := Exit.blocked }
  | o :: stream =>
    let (n, buf') := readInto buf o
    let (c1, werr) := if n > 0 then c.WriteMessage (buf'.take n) else (c, none)
    match werr with
    | some _ => { conn := c1, calls := [RemoteCall.logRead], exit := Exit.returned }
    | none =>
      match o.err with
      | some err =>
        let c2 := if err ≠ ReadError.EOF then (c1.WriteJSONError err.Error).1 else c1
        { conn := c2, calls := [RemoteCall.logRead], exit := Exit.returned }
      | none =>
        let r := logLoop c1 buf' stream
        { r with calls := RemoteCall.logRead :: r.calls }

/-- `func (h *Handler) StreamLogs(c *websocket.Conn)`; `openLogs` is the
cluster's answer to `GetLogs(pod, opts).Stream(ctx)` in a namespace: an error,
or a stream given by the outcomes of its successive reads. -/
def StreamLogs (h : Handler)
    (openLogs : String → String → PodLogOptions → Except String (List ReadOutcome))
    (c : Conn) : Run :=
  if h.K8sManager.Clientset = false then
    { conn := (c.WriteJSONError "kubeconfig not loaded").1, calls := [], cancelled := false,
      exit := Exit.returned }
  else
    let ns := c.Query "namespace" "default"
    let pod := c.Query "pod" ""
    let container := c.Query "container" ""
    let tailLines : Int := 100
    if pod = "" then
      { conn := (c.WriteJSONError "pod name is required").1, calls := [], cancelled := false,
        exit := Exit.returned }
    else
      let opts : PodLogOptions := { Container := container, Follow := true, TailLines := some tailLines }
      match openLogs ns pod opts with
      | Except.error err =>
        { conn := (c.WriteJSONError err).1, calls := [RemoteCall.logStream ns pod opts],
          cancelled := false, exit := Exit.returned }
      | Except.ok stream =>
        let buf : List Byte := List.replicate logBufSize 0
        let r := logLoop c buf stream
        { conn := r.conn,
          calls := RemoteCall.logStream ns pod opts :: r.calls ++
            (if r.exit = Exit.returned then [RemoteCall.logStreamClose] else []),
          cancelled := false, exit := r.exit }

/-! ## Exec mode: `ExecShell` -/

/-- One action of the remote session on the streams it was given: a read of
its stdin into a buffer `p`, or a write of a chunk to its stdout or stderr. -/
inductive SessionStep where
  | stdinRead (p : List Byte)
  | stdoutWrite (p : List Byte)
  | stderrWrite (p : List Byte)
deriving DecidableEq, Repr

/-- The remote session acting on the bridge handler attached to all three of
its streams. -/
def runSession (s : streamHandler) : List SessionStep → streamHandler
  | [] => s
  | SessionStep.stdinRead p :: steps => runSession (s.Read p).s steps
  | SessionStep.stdoutWrite p :: steps => runSession (s.Write p).s steps
  | SessionStep.stderrWrite p :: steps => runSession (s.Write p).s steps

/-- The request `ExecShell` builds for a pod: `Post().Resource("pods").Name(pod)
.Namespace(namespace).SubResource("exec")` and the `Param` calls that follow,
the last ones by the loop over `[]string{command}`. -/
def execRequest (ns pod container command : String) : Request :=
  let req : Request :=
    { verb := "POST", resource := "pods", name := pod, ns := ns, subResource := "exec",
      params := [] }
  let req := ((((req.Param "container" container).Param "stdin" "true").Param "stdout" "true").Param
    "stderr" "true").Param "tty" "true"
  [command].foldl (fun r arg => r.Param "command" arg) req

/-- `func (h *Handler) ExecShell(c *websocket.Conn)`; `newSPDYExecutor` is the
error of `remotecommand.NewSPDYExecutor(config, method, url)` if any, and
`session` gives what the remote session does with the streams it is handed
and the error `exec.Stream` returns in the end. -/
def ExecShell (h : Handler) (newSPDYExecutor : String → Request → Option String)
    (session : StreamOptions → List SessionStep × Option String) (c : Conn) : Run :=
  if h.K8sManager.Clientset = false ∨ h.K8sManager.Config = false then
    { conn := (c.WriteJSONError "kubeconfig not loaded").1, calls := [], cancelled := false,
      exit := Exit.returned }
  else
    let ns := c.Query "namespace" "default"
    let pod := c.Query "pod" ""
    let container := c.Query "container" ""
    let command := c.Query "command" "/bin/sh"
    if pod = "" then
      { conn := (c.WriteJSONError "pod name is required").1, calls := [], cancelled := false,
        exit := Exit.returned }
    else
      let req := execRequest ns pod container command
      match newSPDYExecutor "POST" req with
      | some err =>
        { conn := (c.WriteMessage (bytesOf ("\x1b[1;31mError: " ++ err ++ "\x1b[0m\n"))).1,
          calls := [RemoteCall.newSPDYExecutor "POST" req], cancelled := false,
          exit := Exit.returned }
      | none =>
        let handler : streamHandler := { conn := c, leftover := [] }
        let opts : StreamOptions := { Stdin := true, Stdout := true, Stderr := true, Tty := true }
        let (steps, err) := session opts
        let handler' := runSession handler steps
        let calls := [RemoteCall.newSPDYExecutor "POST" req, RemoteCall.execStream opts]
        match err with
        | some err =>
          { conn := (handler'.conn.WriteJSONError err).1, calls := calls, cancelled := false,
            exit := Exit.returned }
        | none => { conn := handler'.conn, calls := calls, cancelled := false, exit := Exit.returned }

/-! ## The request/response handlers of `resource_handler.go` -/

/-- The parts of a `fiber.Ctx` the resource handlers read: the route
parameters and the query parameters. -/
structure Ctx where
  params : List (String × String)
  query : List (String × String)
deriving DecidableEq, Repr

/-- `c.Params(key)`: the route parameter, empty when there is none. -/
def Ctx.Params (c : Ctx) (key : String) : String :=
  (c.params.lookup key).getD ""

/-- `c.Query(key, defaultValue)` of a `fiber.Ctx`: the query parameter, the
default when the parameter is absent or empty. -/
def Ctx.Query (c : Ctx) (key : String) (defaultValue : String) : String :=
  match c.query.lookup key with
  | some v => if v = "" then defaultValue else v
  | none => defaultValue

/-- The bodies the resource handlers send: `fiber.Map{"error": msg}`,
`fiber.Map{"message": msg}`, a document as JSON, or a string. -/
inductive Body where
  | error (msg : String)
  | message (msg : String)
  | json (doc : Obj)
  | text (s : String)
deriving DecidableEq, Repr

/-- Observable result of a request handler: status code, body, and the remote
calls made in order. -/
structure HttpRun where
  status : Nat
  body : Body
  calls : List RemoteCall
deriving DecidableEq, Repr

/-- The switch of `ListResources`: the list call of the selected accessor,
`none` in the default case. -/
def ListResources.switch (resourceType ns : String) (opts : ListOptions) : Option RemoteCall :=
  match resourceType with
  | "pods" => some (RemoteCall.list Api.Pods (some ns) opts)
  | "deployments" => some (RemoteCall.list Api.Deployments (some ns) opts)
  | "services" => some (RemoteCall.list Api.Services (some ns) opts)
  | "statefulsets" => some (RemoteCall.list Api.StatefulSets (some ns) opts)
  | "namespaces" | "ns" => some (RemoteCall.list Api.Namespaces none opts)
  | "nodes" | "no" => some (RemoteCall.list Api.Nodes none opts)
  | "configmaps" | "cm" => some (RemoteCall.list Api.ConfigMaps (some ns) opts)
  | "secrets" | "sec" => some (RemoteCall.list Api.Secrets (some ns) opts)
  | "ingresses" | "ing" => some (RemoteCall.list Api.Ingresses (some ns) opts)
  | "persistentvolumes" | "pv" => some (RemoteCall.list Api.PersistentVolumes none opts)
  | "persistentvolumeclaims" | "pvc" =>
    some (RemoteCall.list Api.PersistentVolumeClaims (some ns) opts)
  | _ => none

/-- `func (h *Handler) ListResources(c *fiber.Ctx) error`; `remote` is the
cluster's answer to a call. -/
def ListResources (h : Handler) (remote : RemoteCall → Except String Obj) (c : Ctx) : HttpRun :=
  if h.K8sManager.Clientset = false then
    { status := 412, body := Body.error "kubeconfig not loaded", calls := [] }
  else
    let resourceType := c.Params "type"
    let ns := c.Query "namespace" "default"
    let labelSelector := c.Query "labelSelector" ""
    let fieldSelector := c.Query "fieldSelector" ""
    let opts : ListOptions := { LabelSelector := labelSelector, FieldSelector := fieldSelector }
    match ListResources.switch resourceType ns opts with
    | none => { status := 404, body := Body.error "unsupported resource type", calls := [] }
    | some call =>
      match remote call with
      | Except.error err => { status := 500, body := Body.error err, calls := [call] }
      | Except.ok list => { status := 200, body := Body.json list, calls := [call] }

/-- The switch of `GetResource`: the get call of the selected accessor, `none`
in the default case. -/
def GetResource.switch (resourceType ns name : String) : Option RemoteCall :=
  match resourceType with
  | "pods" => some (RemoteCall.get Api.Pods (some ns) name)
  | "deployments" => some (RemoteCall.get Api.Deployments (some ns) name)
  | "services" => some (RemoteCall.get Api.Services (some ns) name)
  | "statefulsets" => some (RemoteCall.get Api.StatefulSets (some ns) name)
  | "namespaces" | "ns" => some (RemoteCall.get Api.Namespaces none name)
  | "nodes" | "no" => some (RemoteCall.get Api.Nodes none name)
  | "configmaps" | "cm" => some (RemoteCall.get Api.ConfigMaps (some ns) name)
  | "secrets" | "sec" => some (RemoteCall.get Api.Secrets (some ns) name)
  | "ingresses" | "ing" => some (RemoteCall.get Api.Ingresses (some ns) name)
  | "persistentvolumes" | "pv" => some (RemoteCall.get Api.PersistentVolumes none name)
  | "persistentvolumeclaims" | "pvc" =>
    some (RemoteCall.get Api.PersistentVolumeClaims (some ns) name)
  | _ => none

/-- `func (h *Handler) GetResource(c *fiber.Ctx) error`. -/
def GetResource (h : Handler) (remote : RemoteCall → Except String Obj) (c : Ctx) : HttpRun :=
  if h.K8sManager.Clientset = false then
    { status := 412, body := Body.error "kubeconfig not loaded", calls := [] }
  else
    let resourceType := c.Params "type"
    let name := c.Params "name"
    let ns := c.Query "namespace" "default"
    match GetResource.switch resourceType ns name with
    | none => { status := 404, body := Body.error "unsupported resource type", calls := [] }
    | some call =>
      match remote call with
      | Except.error err => { status := 500, body := Body.error err, calls := [call] }
      | Except.ok resource => { status := 200, body := Body.json resource, calls := [call] }

/-- The switch of `GetResourceYaml`, written out a second time in the source. -/
def GetResourceYaml.switch (resourceType ns name : String) : Option RemoteCall :=
  match resourceType with
  | "pods" => some (RemoteCall.get Api.Pods (some ns) name)
  | "deployments" => some (RemoteCall.get Api.Deployments (some ns) name)
  | "services" => some (RemoteCall.get Api.Services (some ns) name)
  | "statefulsets" => some (RemoteCall.get Api.StatefulSets (some ns) name)
  | "namespaces" | "ns" => some (RemoteCall.get Api.Namespaces none name)
  | "nodes" | "no" => some (RemoteCall.get Api.Nodes none name)
  | "configmaps" | "cm" => some (RemoteCall.get Api.ConfigMaps (some ns) name)
  | "secrets" | "sec" => some (RemoteCall.get Api.Secrets (some ns) name)
  | "ingresses" | "ing" => some (RemoteCall.get Api.Ingresses (some ns) name)
  | "persistentvolumes" | "pv" => some (RemoteCall.get Api.PersistentVolumes none name)
  | "persistentvolumeclaims" | "pvc" =>
    some (RemoteCall.get Api.PersistentVolumeClaims (some ns) name)
  | _ => none

/-- `func (h *Handler) GetResourceYaml(c *fiber.Ctx) error`; `marshal` is
`yaml.Marshal`. -/
def GetResourceYaml (h : Handler) (remote : RemoteCall → Except String Obj)
    (marshal : Obj → Except String String) (c : Ctx) : HttpRun :=
  if h.K8sManager.Clientset = false then
    { status := 412, body := Body.error "kubeconfig not loaded", calls := [] }
  else
    let resourceType := c.Params "type"
    let name := c.Params "name"
    let ns := c.Query "namespace" "default"
    match GetResourceYaml.switch resourceType ns name with
    | none => { status := 404, body := Body.error "unsupported resource type", calls := [] }
    | some call =>
      match remote call with
      | Except.error err => { status := 500, body := Body.error err, calls := [call] }
      | Except.ok resource =>
        match marshal resource with
        | Except.error err => { status := 500, body := Body.error err, calls := [call] }
        | Except.ok y => { status := 200, body := Body.text y, calls := [call] }

/-- The switch of `DeleteResource`: the delete call of the selected accessor,
`none` in the default case. -/
def DeleteResource.switch (resourceType ns name : String) : Option RemoteCall :=
  match resourceType with
  | "pods" => some (RemoteCall.delete Api.Pods (some ns) name)
  | "deployments" => some (RemoteCall.delete Api.Deployments (some ns) name)
  | "services" => some (RemoteCall.delete Api.Services (some ns) name)
  | "statefulsets" => some (RemoteCall.delete Api.StatefulSets (some ns) name)
  | "namespaces" | "ns" => some (RemoteCall.delete Api.Namespaces none name)
  | "nodes" | "no" => some (RemoteCall.delete Api.Nodes none name)
  | "configmaps" | "cm" => some (RemoteCall.delete Api.ConfigMaps (some ns) name)
  | "secrets" | "sec" => some (RemoteCall.delete Api.Secrets (some ns) name)
  | "ingresses" | "ing" => some (RemoteCall.delete Api.Ingresses (some ns) name)
  | "persistentvolumes" | "pv" => some (RemoteCall.delete Api.PersistentVolumes none name)
  | "persistentvolumeclaims" | "pvc" =>
    some (RemoteCall.delete Api.PersistentVolumeClaims (some ns) name)
  | _ => none

/-- `func (h *Handler) DeleteResource(c *fiber.Ctx) error`. -/
def DeleteResource (h : Handler) (remote : RemoteCall → Except String Obj) (c : Ctx) : HttpRun :=
  if h.K8sManager.Clientset = false then
    { status := 412, body := Body.error "kubeconfig not loaded", calls := [] }
  else
    let resourceType := c.Params "type"
    let name := c.Params "name"
    let ns := c.Query "namespace" "default"
    match DeleteResource.switch resourceType ns name with
    | none => { status := 404, body := Body.error "unsupported resource type", calls := [] }
    | some call =>
      match remote call with
      | Except.error err => { status := 500, body := Body.error err, calls := [call] }
      | Except.ok _ => { status := 200, body := Body.message "resource deleted", calls := [call] }

/-- The map literal `kindMap` of `GetEvents`. -/
def kindMap : List (String × String) :=
  [("pods", "Pod"), ("deployments", "Deployment"), ("services", "Service"),
   ("statefulsets", "StatefulSet"), ("namespaces", "Namespace"), ("ns", "Namespace"),
   ("nodes", "Node"), ("no", "Node"), ("configmaps", "ConfigMap"), ("cm", "ConfigMap"),
   ("secrets", "Secret"), ("sec", "Secret"), ("ingresses", "Ingress"), ("ing", "Ingress"),
   ("persistentvolumes", "PersistentVolume"), ("pv", "PersistentVolume"),
   ("persistentvolumeclaims", "PersistentVolumeClaim"), ("pvc", "PersistentVolumeClaim")]

/-- `func (h *Handler) GetEvents(c *fiber.Ctx) error`. -/
def GetEvents (h : Handler) (remote : RemoteCall → Except String Obj) (c : Ctx) : HttpRun :=
  if h.K8sManager.Clientset = false then
    { status := 412, body := Body.error "kubeconfig not loaded", calls := [] }
  else
    let resourceType := c.Params "type"
    let name := c.Params "name"
    let ns := c.Query "namespace" "default"
    match kindMap.lookup resourceType with
    | none => { status := 400, body := Body.error "unsupported resource type for events", calls := [] }
    | some kind =>
      let fieldSelector :=
        "involvedObject.kind=" ++ kind ++ ",involvedObject.name=" ++ name ++
          ",involvedObject.namespace=" ++ ns
      let fieldSelector :=
        if resourceType = "namespaces" ∨ resourceType = "ns" ∨ resourceType = "nodes" ∨
            resourceType = "no" ∨ resourceType = "persistentvolumes" ∨ resourceType = "pv" then
          "involvedObject.kind=" ++ kind ++ ",involvedObject.name=" ++ name
        else fieldSelector
      let call := RemoteCall.listEvents ns { LabelSelector := "", FieldSelector := fieldSelector }
      match remote call with
      | Except.error err => { status := 500, body := Body.error err, calls := [call] }
      | Except.ok events => { status := 200, body := Body.json events, calls := [call] }

/-! ## Discovery: `contains` and `GetAPIResources` -/

/-- The fields of `metav1.APIResource` the program reads. -/
structure MetaAPIResource where
  Name : String
  Kind : String
  Namespaced : Bool
  Verbs : List String
  ShortNames : List String
deriving DecidableEq, Repr

/-- One `metav1.APIResourceList` of a discovery result. -/
structure APIResourceList where
  APIResources : List MetaAPIResource
deriving DecidableEq, Repr

/-- The struct `APIResource` of `client.go`. -/
structure APIResource where
  Name : String
  Kind : String
  Namespaced : Bool
  Verbs : List String
  ShortNames : List String
deriving DecidableEq, Repr

/-- The slice expression `s[i:j]` on the bytes of a Go string; `none` is the
run-time panic for indices out of range. -/
def slice (s : List Byte) (i j : Nat) : Option (List Byte) :=
  if i ≤ j ∧ j ≤ s.length then some ((s.drop i).take (j - i)) else none

/-- The loop of `contains` from index `i` with `n` iterations left. -/
def containsLoop (s substr : List Byte) : Nat → Nat → Option Bool
  | 0, _ => some false
  | n + 1, i =>
    match slice s i (i + substr.length) with
    | none => none
    | some w => if w = substr then some true else containsLoop s substr n (i + 1)

/-- `func contains(s, substr string) bool` on the bytes of its arguments. The
loop runs for `i = 0, ..., len(s)-len(substr)`, a signed bound: that is
`len(s)-len(substr)+1` iterations, none when the bound is negative. `none` is
a panic. -/
def contains (s substr : List Byte) : Option Bool :=
  containsLoop s substr (((s.length : Int) - (substr.length : Int) + 1).toNat) 0

/-- The inner loop of `GetAPIResources` over the resources of one group,
appending to `resources`. -/
def appendResources (resources : List APIResource) : List MetaAPIResource → Option (List APIResource)
  | [] => some resources
  | res :: rest =>
    match contains (bytesOf res.Name) (bytesOf "/") with
    | none => none
    | some true => appendResources resources rest
    | some false =>
      appendResources
        (resources ++ [{ Name := res.Name, Kind := res.Kind, Namespaced := res.Namespaced,
                         Verbs := res.Verbs, ShortNames := res.ShortNames }]) rest

/-- The outer loop of `GetAPIResources` over the groups. -/
def appendGroups (resources : List APIResource) : List APIResourceList → Option (List APIResource)
  | [] => some resources
  | group :: groups =>
    match appendResources resources group.APIResources with
    | none => none
    | some resources' => appendGroups resources' groups

/-- `func (cm *ClientManager) GetAPIResources() ([]APIResource, error)`;
`discovery` is the answer of `ServerPreferredResources()`. `none` is a panic. -/
def GetAPIResources (cm : ClientManager) (discovery : Except String (List APIResourceList)) :
    Option (Except String (List APIResource)) :=
  if cm.Clientset = false then
    some (Except.error "clientset not initialized")
  else
    match discovery with
    | Except.error err => some (Except.error err)
    | Except.ok resourceLists =>
      match appendGroups [] resourceLists with
      | none => none
      | some resources => some (Except.ok resources)

/-- A connection opened with the given query parameters, nothing received or
written yet, every write accepted. -/
def Conn.ofQuery (query : List (String × String)) : Conn :=
  { query := query, inbox := [], closeErr := "closed", writeScript := [], attempts := [] }

/-! ## Observations used in the statements -/

/-- The Kubernetes kind of the objects behind each accessor. -/
def kindName : Api → String
  | Api.Pods => "Pod"
  | Api.Deployments => "Deployment"
  | Api.Services => "Service"
  | Api.StatefulSets => "StatefulSet"
  | Api.Namespaces => "Namespace"
  | Api.Nodes => "Node"
  | Api.ConfigMaps => "ConfigMap"
  | Api.Secrets => "Secret"
  | Api.Ingresses => "Ingress"
  | Api.PersistentVolumes => "PersistentVolume"
  | Api.PersistentVolumeClaims => "PersistentVolumeClaim"

/-- The alias pairs of the kind tables: short name, canonical name. -/
def aliasPairs : List (String × String) :=
  [("ns", "namespaces"), ("no", "nodes"), ("cm", "configmaps"), ("sec", "secrets"),
   ("ing", "ingresses"), ("pv", "persistentvolumes"), ("pvc", "persistentvolumeclaims")]


/-- The events of the channel that the loop of `StreamResources` never
receives: those behind the event whose write failed. The channel is unbuffered
and each callback does nothing but its send, so the callback sending the first
of them never returns, and the callbacks for the ones behind it are never
run. -/
def relayPending (c : Conn) : List ResourceEvent → List ResourceEvent
  | [] => []
  | event :: events =>
    match c.WriteJSONEvent event with
    | (_, some _) => events
    | (c', none) => relayPending c' events


/-- The raw bytes a frame carries: the payload of a text frame, nothing for a
JSON document. -/
def Frame.payload : Frame → List Byte
  | Frame.text payload => payload
  | Frame.errorJSON _ => []
  | Frame.eventJSON _ => []

/-! # Verified properties -/

/-- Four reads with buffers of sizes 2, 0, 5 and 3 over the messages `[1,2,3]`,
`[4]`, `[5,6]`: the second message is not used to fill the third read. -/
theorem readAll_example : (readAll { conn := Conn.ofInbox [[1,2,3], [4], [5,6]], leftover := [] }
    [[0,0], [], [0,0,0,0,0], [0,0,0]]) =
    ({ conn := Conn.ofInbox [[5,6]], leftover := [] }, [1,2,3,4]) := by
  decide

/-! ## Properties of the exec bridge -/

theorem copy_fst (dst src : List Byte) : (copy dst src).1 = min dst.length src.length := rfl

theorem copy_snd (dst src : List Byte) :
    (copy dst src).2 = src.take (min dst.length src.length) ++ dst.drop (min dst.length src.length) := rfl

/-- The first `n` bytes of the destination after `copy` are the first `n`
bytes of the source. -/
theorem copy_bytes (dst src : List Byte) :
    (copy dst src).2.take (copy dst src).1 = src.take (min dst.length src.length) := by
  rw [copy_fst, copy_snd]
  have h : (src.take (min dst.length src.length)).length = min dst.length src.length := by
    simp [List.length_take]
  rw [List.take_append_eq_append_take, h, Nat.sub_self]
  simp

/-- `Read` with a non-empty residual buffer. -/
theorem Read_leftover (s : streamHandler) (p : List Byte) (h : s.leftover ≠ []) :
    s.Read p =
      { s := { s with leftover := s.leftover.drop (copy p s.leftover).1 },
        p := (copy p s.leftover).2, n := (copy p s.leftover).1, err := none } := by
  have hl : s.leftover.length > 0 := List.length_pos.mpr h
  simp [streamHandler.Read, hl]

/-- `Read` with an empty residual buffer and no message left. -/
theorem Read_closed (s : streamHandler) (p : List Byte) (h : s.leftover = [])
    (hi : s.conn.inbox = []) :
    s.Read p = { s := s, p := p, n := 0, err := some s.conn.closeErr } := by
  cases s with
  | mk conn leftover =>
    simp only at h hi
    subst h
    simp [streamHandler.Read, Conn.ReadMessage, hi]

/-- `Read` with an empty residual buffer and a message available. -/
theorem Read_message (s : streamHandler) (p msg : List Byte) (rest : List (List Byte))
    (h : s.leftover = []) (hi : s.conn.inbox = msg :: rest) :
    s.Read p =
      { s := if (copy p msg).1 < msg.length
             then { conn := { s.conn with inbox := rest }, leftover := msg.drop (copy p msg).1 }
             else { conn := { s.conn with inbox := rest }, leftover := s.leftover },
        p := (copy p msg).2, n := (copy p msg).1, err := none } := by
  simp [streamHandler.Read, h, Conn.ReadMessage, hi]

/-- One `Read` neither loses nor invents bytes: what it delivers, followed by
the new residual buffer, is the old residual buffer followed by the messages
it consumed. -/
theorem Read_conserves (s : streamHandler) (p : List Byte) :
    ∃ consumed : List (List Byte),
      s.conn.inbox = consumed ++ (s.Read p).s.conn.inbox ∧
      (s.Read p).bytes ++ (s.Read p).s.leftover = s.leftover ++ consumed.flatten := by
  by_cases h : s.leftover = []
  · cases hi : s.conn.inbox with
    | nil =>
      refine ⟨[], ?_, ?_⟩
      · rw [Read_closed s p h hi]; simp [hi]
      · rw [Read_closed s p h hi]; simp [ReadResult.bytes]
    | cons msg rest =>
      refine ⟨[msg], ?_, ?_⟩
      · rw [Read_message s p msg rest h hi]
        split <;> simp
      · rw [Read_message s p msg rest h hi]
        simp only [ReadResult.bytes, copy_bytes, h]
        split
        · rename_i hlt
          rw [copy_fst] at *
          simp
        · rename_i hlt
          rw [copy_fst] at hlt
          have : msg.length ≤ min p.length msg.length := Nat.le_of_not_lt hlt
          simp [List.take_of_length_le this]
  · refine ⟨[], ?_, ?_⟩
    · rw [Read_leftover s p h]; simp
    · rw [Read_leftover s p h]
      simp only [ReadResult.bytes, copy_bytes]
      rw [copy_fst]
      simp

/-- The round-trip invariant of a run of reads, from any starting state. -/
theorem readAll_conserves (bufs : List (List Byte)) : ∀ s : streamHandler,
    ∃ consumed : List (List Byte),
      s.conn.inbox = consumed ++ (readAll s bufs).1.conn.inbox ∧
      (readAll s bufs).2 ++ (readAll s bufs).1.leftover = s.leftover ++ consumed.flatten := by
  induction bufs with
  | nil => intro s; exact ⟨[], by simp [readAll], by simp [readAll]⟩
  | cons p bufs ih =>
    intro s
    obtain ⟨c1, h1, h2⟩ := Read_conserves s p
    obtain ⟨c2, h3, h4⟩ := ih (s.Read p).s
    refine ⟨c1 ++ c2, ?_, ?_⟩
    · simp only [readAll]
      rw [h1, h3]; simp
    · simp only [readAll]
      rw [List.append_assoc, h4, ← List.append_assoc, h2]
      simp

/-- C1: for every connection (every finite list of pending client messages)
and every finite sequence of read buffers, of any sizes including zero,
applied to `Read` from an empty residual buffer: the bytes returned by the
reads, followed by the final residual buffer, are the concatenation of the
messages consumed so far, in order; so the delivered bytes are a prefix of the
concatenation of all client messages, and are all of it once every message
is consumed and the residual buffer is empty. -/
theorem C1_read_concatenation (c : Conn) (bufs : List (List Byte)) :
    ∃ consumed : List (List Byte),
      c.inbox = consumed ++ (readAll ⟨c, []⟩ bufs).1.conn.inbox ∧
      (readAll ⟨c, []⟩ bufs).2 ++ (readAll ⟨c, []⟩ bufs).1.leftover = consumed.flatten ∧
      (readAll ⟨c, []⟩ bufs).2 <+: c.inbox.flatten ∧
      ((readAll ⟨c, []⟩ bufs).1.conn.inbox = [] ∧ (readAll ⟨c, []⟩ bufs).1.leftover = [] →
        (readAll ⟨c, []⟩ bufs).2 = c.inbox.flatten) := by
  obtain ⟨consumed, h1, h2⟩ := readAll_conserves bufs ⟨c, []⟩
  simp only [List.nil_append] at h1 h2
  refine ⟨consumed, h1, h2, ?_, ?_⟩
  · refine ⟨(readAll ⟨c, []⟩ bufs).1.leftover ++ (readAll ⟨c, []⟩ bufs).1.conn.inbox.flatten, ?_⟩
    rw [← List.append_assoc, h2]
    conv_rhs => rw [h1]
    simp
  · rintro ⟨hi, hl⟩
    rw [hl, List.append_nil] at h2
    rw [hi, List.append_nil] at h1
    rw [h2, h1]

/-- C2: with a non-empty residual buffer, `Read` consumes no transport message
(the connection is untouched), returns the first `min(len(p), len(leftover))`
bytes of the residual buffer with a nil error, and keeps the rest for the next
call; in any state, a read that touches the connection started from an empty
residual buffer. -/
theorem C2_read_serves_leftover_first (s : streamHandler) (p : List Byte)
    (h : s.leftover ≠ []) :
    (s.Read p).s.conn = s.conn ∧
    (s.Read p).n = min p.length s.leftover.length ∧
    (s.Read p).bytes = s.leftover.take (min p.length s.leftover.length) ∧
    (s.Read p).err = none ∧
    (s.Read p).s.leftover = s.leftover.drop (min p.length s.leftover.length) ∧
    (∀ (t : streamHandler) (q : List Byte), (t.Read q).s.conn ≠ t.conn → t.leftover = []) := by
  refine ⟨?_, ?_, ?_, ?_, ?_, ?_⟩
  · rw [Read_leftover s p h]
  · rw [Read_leftover s p h]; rfl
  · rw [Read_leftover s p h]; exact copy_bytes p s.leftover
  · rw [Read_leftover s p h]
  · rw [Read_leftover s p h]; rfl
  · intro t q hne
    by_contra hl
    exact hne (by rw [Read_leftover t q hl])

/-- C2 at a concrete state: residual buffer `[1, 2, 3]`, one pending message,
buffer of size two. -/
theorem C2_read_serves_leftover_first_witness :
    (⟨Conn.ofInbox [[9]], [1, 2, 3]⟩ : streamHandler).leftover ≠ [] ∧
    ((⟨Conn.ofInbox [[9]], [1, 2, 3]⟩ : streamHandler).Read [0, 0]).s.conn = Conn.ofInbox [[9]] ∧
    ((⟨Conn.ofInbox [[9]], [1, 2, 3]⟩ : streamHandler).Read [0, 0]).bytes = [1, 2] ∧
    ((⟨Conn.ofInbox [[9]], [1, 2, 3]⟩ : streamHandler).Read [0, 0]).s.leftover = [3] :=
  have h := C2_read_serves_leftover_first ⟨Conn.ofInbox [[9]], [1, 2, 3]⟩ [0, 0] (by decide)
  ⟨by decide, h.1, h.2.2.1, h.2.2.2.2.1⟩

/-- C3: `Write` hands the transport exactly one message, a text frame whose
payload is `p` unchanged, and touches nothing else; it returns `(len(p), nil)`
when the send succeeds and `(0, err)` when the send fails with `err`. -/
theorem C3_write_one_message (s : streamHandler) (p : List Byte) :
    ∃ outcome : Option String,
      (s.Write p).s.conn.attempts = s.conn.attempts ++ [(Frame.text p, outcome)] ∧
      (s.Write p).s.conn.inbox = s.conn.inbox ∧
      (s.Write p).s.leftover = s.leftover ∧
      (outcome = none → (s.Write p).n = p.length ∧ (s.Write p).err = none) ∧
      (∀ err, outcome = some err → (s.Write p).n = 0 ∧ (s.Write p).err = some err) := by
  cases hs : s.conn.writeScript with
  | nil =>
    refine ⟨none, ?_⟩
    simp [streamHandler.Write, Conn.WriteMessage, Conn.write, hs]
  | cons r rest =>
    refine ⟨r, ?_⟩
    cases r with
    | none => simp [streamHandler.Write, Conn.WriteMessage, Conn.write, hs]
    | some e => simp [streamHandler.Write, Conn.WriteMessage, Conn.write, hs]

/-! ## Properties of the transport and of watch mode -/

/-- A write on a transport that accepts every write succeeds, appends the
frame to the log and leaves a transport that accepts every write. -/
theorem write_of_acceptsAll (c : Conn) (f : Frame) (h : c.acceptsAll) :
    (c.write f).2 = none ∧ (c.write f).1.acceptsAll ∧
    (c.write f).1.attempts = c.attempts ++ [(f, none)] ∧
    (c.write f).1.inbox = c.inbox ∧ (c.write f).1.query = c.query := by
  cases hs : c.writeScript with
  | nil => simp [Conn.write, hs, Conn.acceptsAll]
  | cons r rest =>
    have hr : r = none := h r (by simp [hs])
    have hrest : ∀ x ∈ rest, x = none := fun x hx => h x (by simp [hs, hx])
    subst hr
    simpa [Conn.write, hs, Conn.acceptsAll] using hrest

/-- Any write appends exactly one attempt, carrying the frame. -/
theorem write_attempts (c : Conn) (f : Frame) :
    (c.write f).1.attempts = c.attempts ++ [(f, (c.write f).2)] := by
  cases hs : c.writeScript with
  | nil => simp [Conn.write, hs]
  | cons r rest => simp [Conn.write, hs]

/-- On a transport that accepts every write the relay loop writes every event
of the channel, in order, and then waits for the next one. -/
theorem relayLoop_of_acceptsAll (events : List ResourceEvent) : ∀ c : Conn, c.acceptsAll →
    (relayLoop c events).1.attempts = c.attempts ++ events.map (fun e => (Frame.eventJSON e, none)) ∧
    (relayLoop c events).2 = Exit.blocked := by
  induction events with
  | nil => intro c _; simp [relayLoop]
  | cons e events ih =>
    intro c hc
    obtain ⟨h1, h2, h3, _, _⟩ := write_of_acceptsAll c (Frame.eventJSON e) hc
    have hw : c.WriteJSONEvent e = ((c.write (Frame.eventJSON e)).1, none) := by
      rw [← h1]; rfl
    obtain ⟨ih1, ih2⟩ := ih (c.write (Frame.eventJSON e)).1 h2
    simp only [relayLoop, hw]
    refine ⟨?_, ih2⟩
    rw [ih1, h3]; simp

/-- The identifiers `getListerWatcher` resolves are exactly the case labels of
its switch. -/
theorem getListerWatcher_isOk_iff (resourceType ns labelSelector fieldSelector : String) :
    (getListerWatcher resourceType ns labelSelector fieldSelector).isOk = true ↔
      resourceType ∈ acceptedTypes := by
  unfold getListerWatcher
  split <;> simp_all [acceptedTypes, Except.isOk, Except.toBool]

/-- An identifier outside the case labels gets the formatted error. -/
theorem getListerWatcher_unsupported (resourceType ns labelSelector fieldSelector : String)
    (h : resourceType ∉ acceptedTypes) :
    getListerWatcher resourceType ns labelSelector fieldSelector =
      Except.error ("unsupported resource type: " ++ resourceType) := by
  unfold getListerWatcher
  split <;> simp_all [acceptedTypes]

/-- C4: when the kubeconfig is loaded, the requested kind resolves to the
list/watch pair `lw` and the transport accepts every write, the writes of
`StreamResources` are exactly the notifications delivered to the handlers
installed by `WatchResources`, one accepted message each, in delivery order,
mapped by add(obj) to type "ADDED" with obj, update(old, new) to type
"MODIFIED" with new, delete(obj) to type "DELETED" with obj; every message
written is such an event and its type is one of the three. -/
theorem C4_relay_preserves_notifications (h : Handler) (informer : ListWatch → List Notification)
    (c : Conn) (lw : ListWatch)
    (hset : h.K8sManager.Clientset = true)
    (hlw : getListerWatcher (c.Query "type" "pods") (c.Query "namespace" "default")
      (c.Query "labelSelector" "") (c.Query "fieldSelector" "") = Except.ok lw)
    (hacc : c.acceptsAll) :
    (StreamResources h informer c).conn.attempts =
      c.attempts ++ (informer lw).map (fun n =>
        match n with
        | Notification.add obj => (Frame.eventJSON ⟨"ADDED", obj⟩, none)
        | Notification.update _ newObj => (Frame.eventJSON ⟨"MODIFIED", newObj⟩, none)
        | Notification.delete obj => (Frame.eventJSON ⟨"DELETED", obj⟩, none)) ∧
    (StreamResources h informer c).calls = [RemoteCall.newInformer lw, RemoteCall.controllerRun] ∧
    (∀ a ∈ (StreamResources h informer c).conn.attempts.drop c.attempts.length,
      ∃ ev : ResourceEvent, a = (Frame.eventJSON ev, none) ∧
        ev.type ∈ ["ADDED", "MODIFIED", "DELETED"]) := by
  obtain ⟨h1, h2⟩ := relayLoop_of_acceptsAll (eventChan (informer lw)) c hacc
  have hrun : (StreamResources h informer c).conn = (relayLoop c (eventChan (informer lw))).1 ∧
      (StreamResources h informer c).calls =
        [RemoteCall.newInformer lw, RemoteCall.controllerRun] := by
    simp [StreamResources, hset, WatchResources, hlw]
  have hmap : (eventChan (informer lw)).map (fun e => (Frame.eventJSON e, (none : Option String))) =
      (informer lw).map (fun n =>
        match n with
        | Notification.add obj => (Frame.eventJSON ⟨"ADDED", obj⟩, none)
        | Notification.update _ newObj => (Frame.eventJSON ⟨"MODIFIED", newObj⟩, none)
        | Notification.delete obj => (Frame.eventJSON ⟨"DELETED", obj⟩, none)) := by
    simp only [eventChan, List.map_map]
    apply List.map_congr_left
    intro n _
    cases n <;> rfl
  refine ⟨?_, hrun.2, ?_⟩
  · rw [hrun.1, h1, hmap]
  · intro a ha
    rw [hrun.1, h1, List.drop_left] at ha
    simp only [eventChan, List.map_map, List.mem_map] at ha
    obtain ⟨n, _, rfl⟩ := ha
    refine ⟨handle n, rfl, ?_⟩
    cases n <;> simp [handle, AddFunc, UpdateFunc, DeleteFunc]

/-- C4 on a watch of pods delivering an add, an update and a delete. -/
theorem C4_relay_preserves_notifications_witness :
    (Conn.ofInbox []).acceptsAll ∧
    (StreamResources ⟨⟨true, true⟩⟩
      (fun _ => [Notification.add ⟨"a"⟩, Notification.update ⟨"a"⟩ ⟨"b"⟩, Notification.delete ⟨"b"⟩])
      (Conn.ofInbox [])).conn.attempts =
      [(Frame.eventJSON ⟨"ADDED", ⟨"a"⟩⟩, none), (Frame.eventJSON ⟨"MODIFIED", ⟨"b"⟩⟩, none),
       (Frame.eventJSON ⟨"DELETED", ⟨"b"⟩⟩, none)] :=
  ⟨by decide,
   (C4_relay_preserves_notifications ⟨⟨true, true⟩⟩
      (fun _ => [Notification.add ⟨"a"⟩, Notification.update ⟨"a"⟩ ⟨"b"⟩, Notification.delete ⟨"b"⟩])
      (Conn.ofInbox []) ⟨Api.Pods, some "default", "", ""⟩ rfl (by decide) (by decide)).1⟩

/-- C5 fails as stated: the conventional short aliases `po`, `deploy`, `svc`
and `sts` of pods, deployments, services and stateful sets are rejected, and
no identifier other than `pods` selects the pods accessor. -/
theorem C5_short_alias_counterexample :
    getListerWatcher "po" "default" "" "" = Except.error "unsupported resource type: po" ∧
    getListerWatcher "deploy" "default" "" "" = Except.error "unsupported resource type: deploy" ∧
    getListerWatcher "svc" "default" "" "" = Except.error "unsupported resource type: svc" ∧
    getListerWatcher "sts" "default" "" "" = Except.error "unsupported resource type: sts" ∧
    (∀ (resourceType ns labelSelector fieldSelector : String) (lw : ListWatch),
      getListerWatcher resourceType ns labelSelector fieldSelector = Except.ok lw →
      lw.api = Api.Pods → resourceType = "pods") := by
  refine ⟨by decide, by decide, by decide, by decide, ?_⟩
  intro resourceType ns labelSelector fieldSelector lw hlw hapi
  unfold getListerWatcher at hlw
  split at hlw <;> first
    | rfl
    | (simp only [Except.ok.injEq] at hlw
       subst hlw
       simp at hapi)
    | simp at hlw

/-- C5 as amended: each of the eleven kinds resolves under its canonical name
to a list/watch pair on its own accessor (namespaced, except namespaces,
nodes and persistent volumes) carrying the two selectors; the seven kinds
namespaces, nodes, config maps, secrets, ingresses, persistent volumes and
persistent volume claims also resolve, to the same pair, under the aliases
`ns`, `no`, `cm`, `sec`, `ing`, `pv`, `pvc`; and no other identifier
resolves. -/
theorem C5_kinds_resolve (ns labelSelector fieldSelector : String) :
    getListerWatcher "pods" ns labelSelector fieldSelector =
      Except.ok ⟨Api.Pods, some ns, labelSelector, fieldSelector⟩ ∧
    getListerWatcher "deployments" ns labelSelector fieldSelector =
      Except.ok ⟨Api.Deployments, some ns, labelSelector, fieldSelector⟩ ∧
    getListerWatcher "services" ns labelSelector fieldSelector =
      Except.ok ⟨Api.Services, some ns, labelSelector, fieldSelector⟩ ∧
    getListerWatcher "statefulsets" ns labelSelector fieldSelector =
      Except.ok ⟨Api.StatefulSets, some ns, labelSelector, fieldSelector⟩ ∧
    getListerWatcher "namespaces" ns labelSelector fieldSelector =
      Except.ok ⟨Api.Namespaces, none, labelSelector, fieldSelector⟩ ∧
    getListerWatcher "nodes" ns labelSelector fieldSelector =
      Except.ok ⟨Api.Nodes, none, labelSelector, fieldSelector⟩ ∧
    getListerWatcher "configmaps" ns labelSelector fieldSelector =
      Except.ok ⟨Api.ConfigMaps, some ns, labelSelector, fieldSelector⟩ ∧
    getListerWatcher "secrets" ns labelSelector fieldSelector =
      Except.ok ⟨Api.Secrets, some ns, labelSelector, fieldSelector⟩ ∧
    getListerWatcher "ingresses" ns labelSelector fieldSelector =
      Except.ok ⟨Api.Ingresses, some ns, labelSelector, fieldSelector⟩ ∧
    getListerWatcher "persistentvolumes" ns labelSelector fieldSelector =
      Except.ok ⟨Api.PersistentVolumes, none, labelSelector, fieldSelector⟩ ∧
    getListerWatcher "persistentvolumeclaims" ns labelSelector fieldSelector =
      Except.ok ⟨Api.PersistentVolumeClaims, some ns, labelSelector, fieldSelector⟩ ∧
    getListerWatcher "ns" ns labelSelector fieldSelector =
      getListerWatcher "namespaces" ns labelSelector fieldSelector ∧
    getListerWatcher "no" ns labelSelector fieldSelector =
      getListerWatcher "nodes" ns labelSelector fieldSelector ∧
    getListerWatcher "cm" ns labelSelector fieldSelector =
      getListerWatcher "configmaps" ns labelSelector fieldSelector ∧
    getListerWatcher "sec" ns labelSelector fieldSelector =
      getListerWatcher "secrets" ns labelSelector fieldSelector ∧
    getListerWatcher "ing" ns labelSelector fieldSelector =
      getListerWatcher "ingresses" ns labelSelector fieldSelector ∧
    getListerWatcher "pv" ns labelSelector fieldSelector =
      getListerWatcher "persistentvolumes" ns labelSelector fieldSelector ∧
    getListerWatcher "pvc" ns labelSelector fieldSelector =
      getListerWatcher "persistentvolumeclaims" ns labelSelector fieldSelector ∧
    (∀ resourceType : String,
      (getListerWatcher resourceType ns labelSelector fieldSelector).isOk = true ↔
        resourceType ∈ ["pods", "deployments", "services", "statefulsets", "namespaces", "ns",
          "nodes", "no", "configmaps", "cm", "secrets", "sec", "ingresses", "ing",
          "persistentvolumes", "pv", "persistentvolumeclaims", "pvc"]) := by
  refine ⟨rfl, rfl, rfl, rfl, rfl, rfl, rfl, rfl, rfl, rfl, rfl, rfl, rfl, rfl, rfl, rfl, rfl, rfl, ?_⟩
  intro resourceType
  exact getListerWatcher_isOk_iff resourceType ns labelSelector fieldSelector

/-- C6: for every identifier that is not a case label of `getListerWatcher`,
`WatchResources` returns the error "unsupported resource type: " followed by
the identifier, having made no remote call (no informer, no controller, no
list, no watch) and wired no event; and `StreamResources`, called with a
loaded kubeconfig for that identifier, attempts exactly one write, the
structured error carrying that text, makes no remote call and returns. -/
theorem C6_unsupported_kind (resourceType : String) (hid : resourceType ∉ acceptedTypes) :
    (∀ (informer : ListWatch → List Notification) (ns labelSelector fieldSelector : String),
      WatchResources informer resourceType ns labelSelector fieldSelector =
        { calls := [], chan := [],
          err := some ("unsupported resource type: " ++ resourceType) }) ∧
    (∀ (h : Handler) (informer : ListWatch → List Notification) (c : Conn),
      h.K8sManager.Clientset = true → c.Query "type" "pods" = resourceType →
      (StreamResources h informer c).conn.attempts =
        c.attempts ++ [(Frame.errorJSON ("unsupported resource type: " ++ resourceType),
          (c.write (Frame.errorJSON ("unsupported resource type: " ++ resourceType))).2)] ∧
      (StreamResources h informer c).calls = [] ∧
      (StreamResources h informer c).exit = Exit.returned) := by
  have hw : ∀ (informer : ListWatch → List Notification) (ns labelSelector fieldSelector : String),
      WatchResources informer resourceType ns labelSelector fieldSelector =
        { calls := [], chan := [],
          err := some ("unsupported resource type: " ++ resourceType) } := by
    intro informer ns labelSelector fieldSelector
    simp [WatchResources, getListerWatcher_unsupported resourceType ns labelSelector fieldSelector hid]
  refine ⟨hw, ?_⟩
  intro h informer c hset hq
  simp only [StreamResources, hset, hq, hw, Bool.true_eq_false, if_false, Conn.WriteJSONError]
  exact ⟨write_attempts c _, trivial, trivial⟩

/-- C6 for the identifier `cronjobs`, asked for by a client whose writes are
accepted. -/
theorem C6_unsupported_kind_witness :
    "cronjobs" ∉ acceptedTypes ∧
    (StreamResources ⟨⟨true, true⟩⟩ (fun _ => [Notification.add ⟨"a"⟩])
      { query := [("type", "cronjobs")], inbox := [], closeErr := "closed", writeScript := [], attempts := [] }).conn.attempts =
      [(Frame.errorJSON "unsupported resource type: cronjobs", none)] ∧
    (StreamResources ⟨⟨true, true⟩⟩ (fun _ => [Notification.add ⟨"a"⟩])
      { query := [("type", "cronjobs")], inbox := [], closeErr := "closed", writeScript := [], attempts := [] }).calls = [] :=
  have h := (C6_unsupported_kind "cronjobs" (by decide)).2 ⟨⟨true, true⟩⟩
    (fun _ => [Notification.add ⟨"a"⟩])
    { query := [("type", "cronjobs")], inbox := [], closeErr := "closed", writeScript := [], attempts := [] }
    rfl rfl
  ⟨by decide, h.1, h.2.1⟩

/-- C7: when the `pod` parameter is empty, `StreamLogs` and `ExecShell` each
attempt exactly one write, a structured error ("pod name is required", or
"kubeconfig not loaded" when the client handles they need are nil), make no
remote call at all (no log stream, no executor, no exec stream) and return,
whatever the other parameters and whatever the cluster would have answered. -/
theorem C7_empty_pod_rejected (h : Handler)
    (openLogs : String → String → PodLogOptions → Except String (List ReadOutcome))
    (newSPDYExecutor : String → Request → Option String)
    (session : StreamOptions → List SessionStep × Option String) (c : Conn)
    (hpod : c.Query "pod" "" = "") :
    (∃ (msg : String) (outcome : Option String),
      (StreamLogs h openLogs c).conn.attempts = c.attempts ++ [(Frame.errorJSON msg, outcome)] ∧
      msg = (if h.K8sManager.Clientset = false then "kubeconfig not loaded"
        else "pod name is required")) ∧
    (StreamLogs h openLogs c).calls = [] ∧
    (StreamLogs h openLogs c).exit = Exit.returned ∧
    (∃ (msg : String) (outcome : Option String),
      (ExecShell h newSPDYExecutor session c).conn.attempts =
        c.attempts ++ [(Frame.errorJSON msg, outcome)] ∧
      msg = (if h.K8sManager.Clientset = false ∨ h.K8sManager.Config = false
        then "kubeconfig not loaded" else "pod name is required")) ∧
    (ExecShell h newSPDYExecutor session c).calls = [] ∧
    (ExecShell h newSPDYExecutor session c).exit = Exit.returned := by
  refine ⟨?_, ?_, ?_, ?_, ?_, ?_⟩
  · by_cases hc : h.K8sManager.Clientset = false
    · exact ⟨_, _, by simp only [StreamLogs, hc, if_true, Conn.WriteJSONError]; exact write_attempts c _,
        by simp [hc]⟩
    · exact ⟨_, _, by simp only [StreamLogs, hc, hpod, if_true, if_false, Conn.WriteJSONError]; exact write_attempts c _,
        by simp [hc]⟩
  · by_cases hc : h.K8sManager.Clientset = false <;> simp [StreamLogs, hc, hpod]
  · by_cases hc : h.K8sManager.Clientset = false <;> simp [StreamLogs, hc, hpod]
  · by_cases hc : h.K8sManager.Clientset = false ∨ h.K8sManager.Config = false
    · exact ⟨_, _, by simp only [ExecShell, hc, if_true, Conn.WriteJSONError]; exact write_attempts c _,
        by simp only [hc, if_true]⟩
    · exact ⟨_, _, by simp only [ExecShell, hc, hpod, if_true, if_false, Conn.WriteJSONError]; exact write_attempts c _,
        by simp only [hc, if_false]⟩
  · by_cases hc : h.K8sManager.Clientset = false ∨ h.K8sManager.Config = false
    · simp only [ExecShell, hc, if_true]
    · simp only [ExecShell, hc, hpod, if_true, if_false]
  · by_cases hc : h.K8sManager.Clientset = false ∨ h.K8sManager.Config = false
    · simp only [ExecShell, hc, if_true]
    · simp only [ExecShell, hc, hpod, if_true, if_false]

/-- C7 on a connection without any query parameter, with a cluster that would
have answered every request. -/
theorem C7_empty_pod_rejected_witness :
    (Conn.ofInbox []).Query "pod" "" = "" ∧
    (StreamLogs ⟨⟨true, true⟩⟩ (fun _ _ _ => Except.ok []) (Conn.ofInbox [])).calls = [] ∧
    (StreamLogs ⟨⟨true, true⟩⟩ (fun _ _ _ => Except.ok []) (Conn.ofInbox [])).exit = Exit.returned ∧
    (ExecShell ⟨⟨true, true⟩⟩ (fun _ _ => none) (fun _ => ([], none)) (Conn.ofInbox [])).calls = [] ∧
    (ExecShell ⟨⟨true, true⟩⟩ (fun _ _ => none) (fun _ => ([], none)) (Conn.ofInbox [])).exit =
      Exit.returned :=
  have h := C7_empty_pod_rejected ⟨⟨true, true⟩⟩ (fun _ _ _ => Except.ok []) (fun _ _ => none)
    (fun _ => ([], none)) (Conn.ofInbox []) rfl
  ⟨rfl, h.2.1, h.2.2.1, h.2.2.2.2.1, h.2.2.2.2.2⟩

/-! ## Properties of log mode -/

/-- The message sent after a read is exactly what the read stored. -/
theorem readInto_bytes (buf : List Byte) (o : ReadOutcome) :
    (readInto buf o).2.take (readInto buf o).1 = o.data := by
  simp [readInto]

/-- The read loop on a transport that accepts every write, over reads that
succeed followed by a read that returns the error `e`: every non-empty read is
forwarded as one text frame, an error other than `io.EOF` is reported in one
structured error, the failing read is the last read, and the loop returns. -/
theorem logLoop_until_error (last : ReadOutcome) (e : ReadError) (rest : List ReadOutcome)
    (hlast : last.err = some e) (reads : List ReadOutcome) :
    ∀ (c : Conn) (buf : List Byte), c.acceptsAll → (∀ o ∈ reads, o.err = none) →
    (logLoop c buf (reads ++ last :: rest)).conn.attempts =
      c.attempts ++
        ((reads ++ [last]).filter (fun o => decide (0 < o.data.length))).map
          (fun o => (Frame.text o.data, none)) ++
        (if e ≠ ReadError.EOF then [(Frame.errorJSON e.Error, none)] else []) ∧
    (logLoop c buf (reads ++ last :: rest)).calls =
      List.replicate (reads.length + 1) RemoteCall.logRead ∧
    (logLoop c buf (reads ++ last :: rest)).exit = Exit.returned := by
  induction reads with
  | nil =>
    intro c buf hacc _
    by_cases hn : 0 < last.data.length
    · obtain ⟨h1, h2, h3, _, _⟩ := write_of_acceptsAll c (Frame.text last.data) hacc
      have hw : c.WriteMessage last.data = ((c.write (Frame.text last.data)).1, none) := by
        rw [← h1]; rfl
      by_cases he : e = ReadError.EOF
      · simp [logLoop, readInto, hn, hw, hlast, he, h3]
      · obtain ⟨_, _, k3, _, _⟩ :=
          write_of_acceptsAll (c.write (Frame.text last.data)).1 (Frame.errorJSON e.Error) h2
        simp [logLoop, readInto, hn, hw, hlast, he, h3, k3, Conn.WriteJSONError]
    · by_cases he : e = ReadError.EOF
      · simp [logLoop, readInto, hn, hlast, he]
      · obtain ⟨_, _, k3, _, _⟩ := write_of_acceptsAll c (Frame.errorJSON e.Error) hacc
        simp [logLoop, readInto, hn, hlast, he, k3, Conn.WriteJSONError]
  | cons o reads ih =>
    intro c buf hacc hreads
    have ho : o.err = none := hreads o (by simp)
    have hreads' : ∀ x ∈ reads, x.err = none := fun x hx => hreads x (by simp [hx])
    by_cases hn : 0 < o.data.length
    · obtain ⟨h1, h2, h3, _, _⟩ := write_of_acceptsAll c (Frame.text o.data) hacc
      have hw : c.WriteMessage o.data = ((c.write (Frame.text o.data)).1, none) := by
        rw [← h1]; rfl
      obtain ⟨i1, i2, i3⟩ := ih (c.write (Frame.text o.data)).1
        (o.data ++ buf.drop o.data.length) h2 hreads'
      simp only [List.cons_append, logLoop, readInto, hn, if_true, List.take_left', hw, ho,
        List.append_eq]
      refine ⟨?_, ?_, i3⟩
      · rw [i1, h3]; simp [hn]
      · rw [i2]; simp [List.replicate_succ]
    · obtain ⟨i1, i2, i3⟩ := ih c (o.data ++ buf.drop o.data.length) hacc hreads'
      simp only [List.cons_append, logLoop, readInto, hn, if_false, ho, List.append_eq]
      refine ⟨?_, ?_, i3⟩
      · rw [i1]; simp [hn]
      · rw [i2]; simp [List.replicate_succ]

/-- Dropping the empty reads does not change the concatenation of the bytes
read. -/
theorem flatten_nonempty_reads (l : List ReadOutcome) :
    ((l.filter (fun o => decide (0 < o.data.length))).map (fun o => o.data)).flatten =
      (l.map (fun o => o.data)).flatten := by
  induction l with
  | nil => rfl
  | cons o l ih =>
    by_cases hn : 0 < o.data.length
    · simp [List.filter_cons, hn, ih]
    · have h0 : o.data = [] := List.length_eq_zero.mp (Nat.eq_zero_of_not_pos hn)
      simp [List.filter_cons, hn, ih, h0]

/-- What `StreamLogs` does once the kubeconfig is loaded, the pod is given and
the log stream opened. -/
theorem StreamLogs_opened (h : Handler)
    (openLogs : String → String → PodLogOptions → Except String (List ReadOutcome))
    (c : Conn) (stream : List ReadOutcome)
    (hset : h.K8sManager.Clientset = true) (hpod : c.Query "pod" "" ≠ "")
    (hopen : ∀ ns pod opts, openLogs ns pod opts = Except.ok stream) :
    (StreamLogs h openLogs c).conn =
      (logLoop c (List.replicate logBufSize 0) stream).conn ∧
    (StreamLogs h openLogs c).calls =
      RemoteCall.logStream (c.Query "namespace" "default") (c.Query "pod" "")
        { Container := c.Query "container" "", Follow := true, TailLines := some 100 } ::
      (logLoop c (List.replicate logBufSize 0) stream).calls ++
        (if (logLoop c (List.replicate logBufSize 0) stream).exit = Exit.returned
          then [RemoteCall.logStreamClose] else []) ∧
    (StreamLogs h openLogs c).exit = (logLoop c (List.replicate logBufSize 0) stream).exit := by
  simp [StreamLogs, hset, hpod, hopen]

/-- C8: with the kubeconfig loaded, a pod given, the transport accepting every
write, and a log stream whose reads succeed until one returns end-of-stream
(each read storing at most the buffer's 4096 bytes): the messages written are
the non-empty reads, one text frame per read with the read's bytes unmodified,
in order; their payloads concatenated are exactly the bytes the stream
yielded; each carries between 1 and 4096 bytes; nothing else, and no error
message, is written; the read that returned end-of-stream is the last read,
and the handler closes the stream and returns. -/
theorem C8_log_stream_until_eof (h : Handler)
    (openLogs : String → String → PodLogOptions → Except String (List ReadOutcome))
    (c : Conn) (reads : List ReadOutcome) (last : ReadOutcome) (rest : List ReadOutcome)
    (hset : h.K8sManager.Clientset = true) (hpod : c.Query "pod" "" ≠ "")
    (hopen : ∀ ns pod opts, openLogs ns pod opts = Except.ok (reads ++ last :: rest))
    (hreads : ∀ o ∈ reads, o.err = none) (hlast : last.err = some ReadError.EOF)
    (hfit : ∀ o ∈ reads ++ [last], o.data.length ≤ logBufSize)
    (hacc : c.acceptsAll) :
    (StreamLogs h openLogs c).conn.attempts =
      c.attempts ++ ((reads ++ [last]).filter (fun o => decide (0 < o.data.length))).map
        (fun o => (Frame.text o.data, none)) ∧
    (((StreamLogs h openLogs c).conn.attempts.drop c.attempts.length).map
        (fun a => a.1.payload)).flatten =
      ((reads ++ [last]).map (fun o => o.data)).flatten ∧
    (∀ a ∈ (StreamLogs h openLogs c).conn.attempts.drop c.attempts.length,
      ∃ p : List Byte, a = (Frame.text p, none) ∧ 0 < p.length ∧ p.length ≤ 4096) ∧
    (StreamLogs h openLogs c).calls =
      RemoteCall.logStream (c.Query "namespace" "default") (c.Query "pod" "")
        { Container := c.Query "container" "", Follow := true, TailLines := some 100 } ::
      List.replicate (reads.length + 1) RemoteCall.logRead ++ [RemoteCall.logStreamClose] ∧
    (StreamLogs h openLogs c).exit = Exit.returned := by
  obtain ⟨s1, s2, s3⟩ := StreamLogs_opened h openLogs c (reads ++ last :: rest) hset hpod hopen
  obtain ⟨l1, l2, l3⟩ := logLoop_until_error last ReadError.EOF rest hlast reads c
    (List.replicate logBufSize 0) hacc hreads
  simp only [ne_eq, not_true_eq_false, if_false, List.append_nil] at l1
  have hatt : (StreamLogs h openLogs c).conn.attempts =
      c.attempts ++ ((reads ++ [last]).filter (fun o => decide (0 < o.data.length))).map
        (fun o => (Frame.text o.data, none)) := by rw [s1, l1]
  refine ⟨hatt, ?_, ?_, ?_, ?_⟩
  · rw [hatt, List.drop_left, List.map_map]
    exact flatten_nonempty_reads (reads ++ [last])
  · intro a ha
    rw [hatt, List.drop_left, List.mem_map] at ha
    obtain ⟨o, ho, rfl⟩ := ha
    rw [List.mem_filter] at ho
    exact ⟨o.data, rfl, by simpa using ho.2, hfit o ho.1⟩
  · rw [s2, l2, l3]; simp
  · rw [s3, l3]

/-- C8 on a stream read as "hi", then nothing, then a newline together with
end-of-stream. -/
theorem C8_log_stream_until_eof_witness :
    (Conn.ofQuery [("pod", "web-0")]).Query "pod" "" ≠ "" ∧
    (Conn.ofQuery [("pod", "web-0")]).acceptsAll ∧
    (StreamLogs ⟨⟨true, true⟩⟩
      (fun _ _ _ => Except.ok [⟨[104, 105], none⟩, ⟨[], none⟩, ⟨[10], some ReadError.EOF⟩])
      (Conn.ofQuery [("pod", "web-0")])).conn.attempts =
      [(Frame.text [104, 105], none), (Frame.text [10], none)] ∧
    (StreamLogs ⟨⟨true, true⟩⟩
      (fun _ _ _ => Except.ok [⟨[104, 105], none⟩, ⟨[], none⟩, ⟨[10], some ReadError.EOF⟩])
      (Conn.ofQuery [("pod", "web-0")])).exit = Exit.returned :=
  have h := C8_log_stream_until_eof ⟨⟨true, true⟩⟩
    (fun _ _ _ => Except.ok [⟨[104, 105], none⟩, ⟨[], none⟩, ⟨[10], some ReadError.EOF⟩])
    (Conn.ofQuery [("pod", "web-0")]) [⟨[104, 105], none⟩, ⟨[], none⟩] ⟨[10], some ReadError.EOF⟩ []
    rfl (by decide) (fun _ _ _ => rfl) (by decide) rfl (by decide) (by decide)
  ⟨by decide, by decide, h.1, h.2.2.2.2⟩

/-- C9: with the kubeconfig loaded, a pod given, the transport accepting every
write, and a log stream whose reads succeed until one returns an error other
than end-of-stream: every non-empty read up to and including the failing one
is forwarded as one text frame, then exactly one structured error carrying
the error's text is written, and nothing more; the failing read is the last
read, and the handler closes the stream and returns. -/
theorem C9_log_read_error (h : Handler)
    (openLogs : String → String → PodLogOptions → Except String (List ReadOutcome))
    (c : Conn) (reads : List ReadOutcome) (last : ReadOutcome) (rest : List ReadOutcome)
    (e : ReadError)
    (hset : h.K8sManager.Clientset = true) (hpod : c.Query "pod" "" ≠ "")
    (hopen : ∀ ns pod opts, openLogs ns pod opts = Except.ok (reads ++ last :: rest))
    (hreads : ∀ o ∈ reads, o.err = none) (hlast : last.err = some e) (he : e ≠ ReadError.EOF)
    (hacc : c.acceptsAll) :
    (StreamLogs h openLogs c).conn.attempts =
      c.attempts ++ ((reads ++ [last]).filter (fun o => decide (0 < o.data.length))).map
        (fun o => (Frame.text o.data, none)) ++ [(Frame.errorJSON e.Error, none)] ∧
    (StreamLogs h openLogs c).calls =
      RemoteCall.logStream (c.Query "namespace" "default") (c.Query "pod" "")
        { Container := c.Query "container" "", Follow := true, TailLines := some 100 } ::
      List.replicate (reads.length + 1) RemoteCall.logRead ++ [RemoteCall.logStreamClose] ∧
    (StreamLogs h openLogs c).exit = Exit.returned := by
  obtain ⟨s1, s2, s3⟩ := StreamLogs_opened h openLogs c (reads ++ last :: rest) hset hpod hopen
  obtain ⟨l1, l2, l3⟩ := logLoop_until_error last e rest hlast reads c
    (List.replicate logBufSize 0) hacc hreads
  simp only [ne_eq, he, not_false_eq_true, if_true] at l1
  refine ⟨by rw [s1, l1], ?_, by rw [s3, l3]⟩
  rw [s2, l2, l3]; simp

/-- C9 on a stream read as "hi" and then failing, with one byte, on a reset
connection; a further read was scripted and is never made. -/
theorem C9_log_read_error_witness :
    (Conn.ofQuery [("pod", "web-0")]).Query "pod" "" ≠ "" ∧
    (Conn.ofQuery [("pod", "web-0")]).acceptsAll ∧
    (StreamLogs ⟨⟨true, true⟩⟩
      (fun _ _ _ => Except.ok [⟨[104, 105], none⟩, ⟨[33], some (ReadError.other "connection reset")⟩,
        ⟨[63], none⟩])
      (Conn.ofQuery [("pod", "web-0")])).conn.attempts =
      [(Frame.text [104, 105], none), (Frame.text [33], none),
       (Frame.errorJSON "connection reset", none)] ∧
    (StreamLogs ⟨⟨true, true⟩⟩
      (fun _ _ _ => Except.ok [⟨[104, 105], none⟩, ⟨[33], some (ReadError.other "connection reset")⟩,
        ⟨[63], none⟩])
      (Conn.ofQuery [("pod", "web-0")])).calls =
      [RemoteCall.logStream "default" "web-0" ⟨"", true, some 100⟩, RemoteCall.logRead,
       RemoteCall.logRead, RemoteCall.logStreamClose] :=
  have h := C9_log_read_error ⟨⟨true, true⟩⟩
    (fun _ _ _ => Except.ok [⟨[104, 105], none⟩, ⟨[33], some (ReadError.other "connection reset")⟩,
      ⟨[63], none⟩])
    (Conn.ofQuery [("pod", "web-0")]) [⟨[104, 105], none⟩]
    ⟨[33], some (ReadError.other "connection reset")⟩ [⟨[63], none⟩] (ReadError.other "connection reset")
    rfl (by decide) (fun _ _ _ => rfl) (by decide) rfl (by decide) (by decide)
  ⟨by decide, by decide, h.1, h.2.1⟩

/-- Inside the read loop the only remote calls are reads of the stream. -/
theorem logLoop_calls (stream : List ReadOutcome) : ∀ (c : Conn) (buf : List Byte),
    ∀ x ∈ (logLoop c buf stream).calls, x = RemoteCall.logRead := by
  induction stream with
  | nil => intro c buf x hx; simp [logLoop] at hx
  | cons o stream ih =>
    intro c buf x hx
    simp only [logLoop] at hx
    split at hx
    · simpa using hx
    · split at hx
      · simpa using hx
      · simp only [List.mem_cons] at hx
        rcases hx with hx | hx
        · exact hx
        · exact ih _ _ x hx

/-- C10 fails as stated: a connection asking for pod `web-0` with
`follow=false` and `tailLines=5` gets its log stream opened with
`Follow = true` and `TailLines = 100`. -/
theorem C10_requested_options_counterexample :
    ∃ opts : PodLogOptions,
      (StreamLogs ⟨⟨true, true⟩⟩ (fun _ _ _ => Except.ok [])
        (Conn.ofQuery [("pod", "web-0"), ("follow", "false"), ("tailLines", "5")])).calls =
        [RemoteCall.logStream "default" "web-0" opts] ∧
      opts.Follow ≠ false ∧ opts.TailLines ≠ some 5 :=
  ⟨⟨"", true, some 100⟩, by decide, by decide, by decide⟩

/-- C10 as amended: for every connection with a loaded kubeconfig and a
non-empty pod, `StreamLogs` opens exactly one log stream, in the requested
namespace (default `default`) for the requested pod and container, always
with `Follow = true` and `TailLines = 100`, whatever else the request
carries; every later remote call is a read of that stream or its close. -/
theorem C10_log_options_fixed (h : Handler)
    (openLogs : String → String → PodLogOptions → Except String (List ReadOutcome))
    (c : Conn) (hset : h.K8sManager.Clientset = true) (hpod : c.Query "pod" "" ≠ "") :
    ∃ rest : List RemoteCall,
      (StreamLogs h openLogs c).calls =
        RemoteCall.logStream (c.Query "namespace" "default") (c.Query "pod" "")
          { Container := c.Query "container" "", Follow := true, TailLines := some 100 } :: rest ∧
      ∀ x ∈ rest, x = RemoteCall.logRead ∨ x = RemoteCall.logStreamClose := by
  cases hopen : openLogs (c.Query "namespace" "default") (c.Query "pod" "")
      { Container := c.Query "container" "", Follow := true, TailLines := some 100 } with
  | error err =>
    refine ⟨[], ?_, by simp⟩
    simp [StreamLogs, hset, hpod, hopen]
  | ok stream =>
    refine ⟨(logLoop c (List.replicate logBufSize 0) stream).calls ++
      (if (logLoop c (List.replicate logBufSize 0) stream).exit = Exit.returned
        then [RemoteCall.logStreamClose] else []), ?_, ?_⟩
    · simp [StreamLogs, hset, hpod, hopen]
    · intro x hx
      rw [List.mem_append] at hx
      rcases hx with hx | hx
      · exact Or.inl (logLoop_calls stream c _ x hx)
      · split at hx
        · exact Or.inr (by simpa using hx)
        · simp at hx

/-- C10 as amended, on a connection asking for 5 lines without following. -/
theorem C10_log_options_fixed_witness :
    (Conn.ofQuery [("pod", "web-0"), ("follow", "false"), ("tailLines", "5")]).Query "pod" "" ≠ "" ∧
    ∃ rest : List RemoteCall,
      (StreamLogs ⟨⟨true, true⟩⟩ (fun _ _ _ => Except.error "refused")
        (Conn.ofQuery [("pod", "web-0"), ("follow", "false"), ("tailLines", "5")])).calls =
        RemoteCall.logStream "default" "web-0" ⟨"", true, some 100⟩ :: rest ∧
      ∀ x ∈ rest, x = RemoteCall.logRead ∨ x = RemoteCall.logStreamClose :=
  ⟨by decide, C10_log_options_fixed ⟨⟨true, true⟩⟩ (fun _ _ _ => Except.error "refused")
    (Conn.ofQuery [("pod", "web-0"), ("follow", "false"), ("tailLines", "5")]) rfl (by decide)⟩

/-! ## Properties of exec mode -/

/-- C11 fails as stated: a connection asking for pod `web-0` with `tty=false`
gets an exec request whose `tty` parameter is "true" and stream options
with `Tty = true`. -/
theorem C11_tty_flag_counterexample :
    (ExecShell ⟨⟨true, true⟩⟩ (fun _ _ => none) (fun _ => ([], none))
      (Conn.ofQuery [("pod", "web-0"), ("tty", "false")])).calls =
      [RemoteCall.newSPDYExecutor "POST"
        ⟨"POST", "pods", "web-0", "default", "exec",
          [("container", ""), ("stdin", "true"), ("stdout", "true"), ("stderr", "true"),
           ("tty", "true"), ("command", "/bin/sh")]⟩,
       RemoteCall.execStream ⟨true, true, true, true⟩] := by
  decide

/-- C11 as amended: with both client handles loaded and a non-empty pod, the
first remote call of `ExecShell` is the construction of an executor for a POST
to the `exec` subresource of the requested pod in the requested namespace
(default `default`), with the parameters, in order, container (as requested),
stdin, stdout, stderr and tty all "true", and one single `command` argument,
the requested command (default `/bin/sh`); when the executor is constructed
the only other remote call is the stream call, with the bridge attached to
stdin, stdout and stderr and `Tty = true`; the TTY flag never depends on the
request. -/
theorem C11_exec_invocation (h : Handler) (newSPDYExecutor : String → Request → Option String)
    (session : StreamOptions → List SessionStep × Option String) (c : Conn)
    (hset : h.K8sManager.Clientset = true) (hcfg : h.K8sManager.Config = true)
    (hpod : c.Query "pod" "" ≠ "") :
    ∃ (req : Request) (rest : List RemoteCall),
      (ExecShell h newSPDYExecutor session c).calls =
        RemoteCall.newSPDYExecutor "POST" req :: rest ∧
      req = { verb := "POST", resource := "pods", name := c.Query "pod" "",
              ns := c.Query "namespace" "default", subResource := "exec",
              params := [("container", c.Query "container" ""), ("stdin", "true"),
                ("stdout", "true"), ("stderr", "true"), ("tty", "true"),
                ("command", c.Query "command" "/bin/sh")] } ∧
      (∀ err, newSPDYExecutor "POST" req = some err → rest = []) ∧
      (newSPDYExecutor "POST" req = none →
        rest = [RemoteCall.execStream
          { Stdin := true, Stdout := true, Stderr := true, Tty := true }]) := by
  refine ⟨execRequest (c.Query "namespace" "default") (c.Query "pod" "")
    (c.Query "container" "") (c.Query "command" "/bin/sh"), ?_⟩
  cases hex : newSPDYExecutor "POST" (execRequest (c.Query "namespace" "default")
      (c.Query "pod" "") (c.Query "container" "") (c.Query "command" "/bin/sh")) with
  | some err =>
    refine ⟨[], ?_, rfl, fun _ _ => rfl, fun hn => by simp at hn⟩
    simp [ExecShell, hset, hcfg, hpod, hex]
  | none =>
    refine ⟨[RemoteCall.execStream { Stdin := true, Stdout := true, Stderr := true, Tty := true }],
      ?_, rfl, fun e he => by simp at he, fun _ => rfl⟩
    simp only [ExecShell, hset, hcfg, hpod, hex]
    cases (session { Stdin := true, Stdout := true, Stderr := true, Tty := true }).2 <;> simp

/-- C11 as amended, on a connection asking for `sh` in container `app` of pod
`web-0` in namespace `prod` without a TTY. -/
theorem C11_exec_invocation_witness :
    (Conn.ofQuery [("namespace", "prod"), ("pod", "web-0"), ("container", "app"),
      ("command", "sh"), ("tty", "false")]).Query "pod" "" ≠ "" ∧
    ∃ (req : Request) (rest : List RemoteCall),
      (ExecShell ⟨⟨true, true⟩⟩ (fun _ _ => none) (fun _ => ([], none))
        (Conn.ofQuery [("namespace", "prod"), ("pod", "web-0"), ("container", "app"),
          ("command", "sh"), ("tty", "false")])).calls =
        RemoteCall.newSPDYExecutor "POST" req :: rest ∧
      req = ⟨"POST", "pods", "web-0", "prod", "exec",
        [("container", "app"), ("stdin", "true"), ("stdout", "true"), ("stderr", "true"),
         ("tty", "true"), ("command", "sh")]⟩ ∧
      (∀ err, (fun (_ : String) (_ : Request) => (none : Option String)) "POST" req = some err →
        rest = []) ∧
      ((fun (_ : String) (_ : Request) => (none : Option String)) "POST" req = none →
        rest = [RemoteCall.execStream ⟨true, true, true, true⟩]) :=
  ⟨by decide, C11_exec_invocation ⟨⟨true, true⟩⟩ (fun _ _ => none) (fun _ => ([], none))
    (Conn.ofQuery [("namespace", "prod"), ("pod", "web-0"), ("container", "app"),
      ("command", "sh"), ("tty", "false")]) rfl rfl (by decide)⟩

/-- C12, the code at the failing input: when the executor is constructed and
the stream call fails at once with "pod not found", the one message written
is the structured error, not terminal text; when the construction of the
executor fails with "bad url", the one message written is the formatted
terminal text. -/
theorem C12_stream_failure_is_structured :
    (ExecShell ⟨⟨true, true⟩⟩ (fun _ _ => none) (fun _ => ([], some "pod not found"))
      (Conn.ofQuery [("pod", "web-0")])).conn.attempts =
      [(Frame.errorJSON "pod not found", none)] ∧
    (ExecShell ⟨⟨true, true⟩⟩ (fun _ _ => some "bad url") (fun _ => ([], some "pod not found"))
      (Conn.ofQuery [("pod", "web-0")])).conn.attempts =
      [(Frame.text (bytesOf "\x1b[1;31mError: bad url\x1b[0m\n"), none)] := by
  decide

/-- C15: from an empty residual buffer, `Read` with a message `msg` pending
consumes exactly that message and returns `(min(len(p), len(msg)), nil)`, the
delivered bytes being the first so many bytes of `msg` and the new residual
buffer the rest of `msg` (so a buffer larger than `msg` is answered short, the
following message staying in the transport); with no message to receive it
returns `(0, err)` with the transport's error and the residual buffer stays
empty; and no read, in any state, returns more than `len(p)` bytes. -/
theorem C15_read_from_empty_leftover (s : streamHandler) (p : List Byte)
    (h : s.leftover = []) :
    (∀ (msg : List Byte) (rest : List (List Byte)), s.conn.inbox = msg :: rest →
      (s.Read p).n = min p.length msg.length ∧
      (s.Read p).err = none ∧
      (s.Read p).bytes = msg.take (min p.length msg.length) ∧
      (s.Read p).s.leftover = msg.drop (min p.length msg.length) ∧
      (s.Read p).s.conn.inbox = rest) ∧
    (s.conn.inbox = [] →
      (s.Read p).n = 0 ∧ (s.Read p).err = some s.conn.closeErr ∧
      (s.Read p).s.leftover = [] ∧ (s.Read p).s.conn = s.conn) ∧
    (∀ (t : streamHandler) (q : List Byte), (t.Read q).n ≤ q.length ∧
      (t.Read q).bytes.length = (t.Read q).n) := by
  refine ⟨?_, ?_, ?_⟩
  · intro msg rest hi
    rw [Read_message s p msg rest h hi]
    refine ⟨rfl, rfl, copy_bytes p msg, ?_, ?_⟩
    · split
      · rfl
      · rename_i hlt
        rw [copy_fst] at hlt
        have hle : msg.length ≤ min p.length msg.length := Nat.le_of_not_lt hlt
        simp [h, List.drop_eq_nil_of_le hle]
    · split <;> rfl
  · intro hi
    rw [Read_closed s p h hi]
    exact ⟨rfl, rfl, h, rfl⟩
  · intro t q
    by_cases hl : t.leftover = []
    · cases hi : t.conn.inbox with
      | nil => rw [Read_closed t q hl hi]; simp [ReadResult.bytes]
      | cons msg rest =>
        rw [Read_message t q msg rest hl hi]
        simp only [ReadResult.bytes, copy_bytes]
        rw [copy_fst]
        exact ⟨Nat.min_le_left _ _, by simp [List.length_take]⟩
    · rw [Read_leftover t q hl]
      simp only [ReadResult.bytes, copy_bytes]
      rw [copy_fst]
      exact ⟨Nat.min_le_left _ _, by simp [List.length_take]⟩

/-- C15 with the messages `[1, 2]` and `[3]` pending and a buffer of size
five: the read returns the two bytes of the first message only. -/
theorem C15_read_from_empty_leftover_witness :
    (⟨Conn.ofInbox [[1, 2], [3]], []⟩ : streamHandler).leftover = [] ∧
    ((⟨Conn.ofInbox [[1, 2], [3]], []⟩ : streamHandler).Read [0, 0, 0, 0, 0]).n = 2 ∧
    ((⟨Conn.ofInbox [[1, 2], [3]], []⟩ : streamHandler).Read [0, 0, 0, 0, 0]).bytes = [1, 2] ∧
    ((⟨Conn.ofInbox [[1, 2], [3]], []⟩ : streamHandler).Read [0, 0, 0, 0, 0]).s.conn.inbox = [[3]] :=
  have h := (C15_read_from_empty_leftover ⟨Conn.ofInbox [[1, 2], [3]], []⟩ [0, 0, 0, 0, 0] rfl).1
    [1, 2] [[3]] rfl
  ⟨rfl, h.1, h.2.2.1, h.2.2.2.2⟩

/-! ## Failed writes -/

/-- Accepted writes followed by a run of writes of which only the last may
have failed form such a run. -/
theorem failLast_append (pre rest : List (Frame × Option String))
    (hpre : ∀ a ∈ pre, a.2 = none) (hrest : ∀ a ∈ rest.dropLast, a.2 = none) :
    ∀ a ∈ (pre ++ rest).dropLast, a.2 = none := by
  intro a ha
  by_cases hr : rest = []
  · subst hr
    rw [List.append_nil] at ha
    exact hpre a (List.dropLast_subset pre ha)
  · rw [List.dropLast_append_of_ne_nil _ hr, List.mem_append] at ha
    rcases ha with ha | ha
    · exact hpre a ha
    · exact hrest a ha

/-- In the relay loop a failed write is the last write, and the loop returns. -/
theorem relayLoop_failLast (events : List ResourceEvent) : ∀ c : Conn,
    ∃ new : List (Frame × Option String),
      (relayLoop c events).1.attempts = c.attempts ++ new ∧
      (∀ a ∈ new.dropLast, a.2 = none) ∧
      ((∃ a ∈ new, a.2 ≠ none) → (relayLoop c events).2 = Exit.returned) := by
  induction events with
  | nil => intro c; exact ⟨[], by simp [relayLoop], by simp, by simp⟩
  | cons e events ih =>
    intro c
    have hatt := write_attempts c (Frame.eventJSON e)
    cases hw : (c.write (Frame.eventJSON e)).2 with
    | some err =>
      have hpair : c.WriteJSONEvent e = ((c.write (Frame.eventJSON e)).1, some err) := by
        rw [← hw]; rfl
      refine ⟨[(Frame.eventJSON e, some err)], ?_, by simp, fun _ => ?_⟩
      · simp only [relayLoop, hpair]; rw [hatt, hw]
      · simp only [relayLoop, hpair]
    | none =>
      have hpair : c.WriteJSONEvent e = ((c.write (Frame.eventJSON e)).1, none) := by
        rw [← hw]; rfl
      obtain ⟨new, h1, h2, h3⟩ := ih (c.write (Frame.eventJSON e)).1
      refine ⟨(Frame.eventJSON e, none) :: new, ?_, ?_, ?_⟩
      · simp only [relayLoop, hpair]; rw [h1, hatt, hw]; simp
      · exact failLast_append [(Frame.eventJSON e, none)] new (by simp) h2
      · rintro ⟨a, ha, hne⟩
        simp only [relayLoop, hpair]
        rcases List.mem_cons.mp ha with rfl | ha
        · exact absurd rfl hne
        · exact h3 ⟨a, ha, hne⟩

/-- What the read loop does after a read whose bytes, if any, were accepted
by the transport (`c1` is the connection after that write): report an error
other than `io.EOF` and return, return on `io.EOF`, or go on reading. -/
theorem logLoop_after_read (c1 : Conn) (buf' : List Byte) (o : ReadOutcome)
    (stream : List ReadOutcome)
    (ih : ∃ new : List (Frame × Option String),
      (logLoop c1 buf' stream).conn.attempts = c1.attempts ++ new ∧
      (∀ a ∈ new.dropLast, a.2 = none) ∧
      ((∃ a ∈ new, a.2 ≠ none) → (logLoop c1 buf' stream).exit = Exit.returned)) :
    ∃ new : List (Frame × Option String),
      (match o.err with
        | some err =>
          ({ conn := if err ≠ ReadError.EOF then (c1.WriteJSONError err.Error).1 else c1,
             calls := [RemoteCall.logRead], exit := Exit.returned } : LoopResult)
        | none =>
          { logLoop c1 buf' stream with
            calls := RemoteCall.logRead :: (logLoop c1 buf' stream).calls }).conn.attempts =
        c1.attempts ++ new ∧
      (∀ a ∈ new.dropLast, a.2 = none) ∧
      ((∃ a ∈ new, a.2 ≠ none) →
        (match o.err with
          | some err =>
            ({ conn := if err ≠ ReadError.EOF then (c1.WriteJSONError err.Error).1 else c1,
               calls := [RemoteCall.logRead], exit := Exit.returned } : LoopResult)
          | none =>
            { logLoop c1 buf' stream with
              calls := RemoteCall.logRead :: (logLoop c1 buf' stream).calls }).exit =
          Exit.returned) := by
  cases o.err with
  | none => exact ih
  | some err =>
    by_cases he : err = ReadError.EOF
    · exact ⟨[], by simp [he], by simp, fun _ => rfl⟩
    · refine ⟨[(Frame.errorJSON err.Error, (c1.write (Frame.errorJSON err.Error)).2)], ?_,
        by simp, fun _ => rfl⟩
      simp only [ne_eq, he, not_false_eq_true, if_true, Conn.WriteJSONError]
      exact write_attempts c1 _

/-- In the read loop of `StreamLogs` a failed write is the last write, and the
loop returns. -/
theorem logLoop_failLast (stream : List ReadOutcome) : ∀ (c : Conn) (buf : List Byte),
    ∃ new : List (Frame × Option String),
      (logLoop c buf stream).conn.attempts = c.attempts ++ new ∧
      (∀ a ∈ new.dropLast, a.2 = none) ∧
      ((∃ a ∈ new, a.2 ≠ none) → (logLoop c buf stream).exit = Exit.returned) := by
  induction stream with
  | nil => intro c buf; exact ⟨[], by simp [logLoop], by simp, by simp⟩
  | cons o stream ih =>
    intro c buf
    by_cases hn : 0 < o.data.length
    · have hatt := write_attempts c (Frame.text o.data)
      cases hw : (c.write (Frame.text o.data)).2 with
      | some err =>
        have hpair : c.WriteMessage o.data = ((c.write (Frame.text o.data)).1, some err) := by
          rw [← hw]; rfl
        refine ⟨[(Frame.text o.data, some err)], ?_, by simp, fun _ => ?_⟩
        · simp only [logLoop, readInto, hn, if_true, List.take_left', hpair]; rw [hatt, hw]
        · simp only [logLoop, readInto, hn, if_true, List.take_left', hpair]
      | none =>
        have hpair : c.WriteMessage o.data = ((c.write (Frame.text o.data)).1, none) := by
          rw [← hw]; rfl
        obtain ⟨new, h1, h2, h3⟩ := logLoop_after_read (c.write (Frame.text o.data)).1
          (o.data ++ buf.drop o.data.length) o stream (ih _ _)
        refine ⟨(Frame.text o.data, none) :: new, ?_, ?_, ?_⟩
        · simp only [logLoop, readInto, hn, if_true, List.take_left', hpair]
          rw [h1, hatt, hw]; simp
        · exact failLast_append [(Frame.text o.data, none)] new (by simp) h2
        · rintro ⟨a, ha, hne⟩
          simp only [logLoop, readInto, hn, if_true, List.take_left', hpair]
          rcases List.mem_cons.mp ha with rfl | ha
          · exact absurd rfl hne
          · exact h3 ⟨a, ha, hne⟩
    · obtain ⟨new, h1, h2, h3⟩ := logLoop_after_read c
        (o.data ++ buf.drop o.data.length) o stream (ih _ _)
      refine ⟨new, ?_, h2, ?_⟩
      · simp only [logLoop, readInto, hn, if_false]; exact h1
      · intro hex
        simp only [logLoop, readInto, hn, if_false]; exact h3 hex

/-- A handler run that consists of one write and a return. -/
theorem single_write_failLast (c : Conn) (f : Frame) :
    ∃ new : List (Frame × Option String),
      (c.write f).1.attempts = c.attempts ++ new ∧
      (∀ a ∈ new.dropLast, a.2 = none) := by
  exact ⟨[(f, (c.write f).2)], write_attempts c f, by simp⟩

/-- C14: in every run of `StreamResources` and in every run of `StreamLogs`,
whatever the transport does, all writes attempted before the last one were
accepted, so a failed write is the last write attempted (nothing, and no
error message, is written after it), and a run with a failed write has
returned. -/
theorem C14_failed_write_is_last (h : Handler) (informer : ListWatch → List Notification)
    (openLogs : String → String → PodLogOptions → Except String (List ReadOutcome))
    (c : Conn) :
    (∃ new : List (Frame × Option String),
      (StreamResources h informer c).conn.attempts = c.attempts ++ new ∧
      (∀ a ∈ new.dropLast, a.2 = none) ∧
      ((∃ a ∈ new, a.2 ≠ none) → (StreamResources h informer c).exit = Exit.returned)) ∧
    (∃ new : List (Frame × Option String),
      (StreamLogs h openLogs c).conn.attempts = c.attempts ++ new ∧
      (∀ a ∈ new.dropLast, a.2 = none) ∧
      ((∃ a ∈ new, a.2 ≠ none) → (StreamLogs h openLogs c).exit = Exit.returned)) := by
  constructor
  · by_cases hc : h.K8sManager.Clientset = false
    · obtain ⟨new, h1, h2⟩ := single_write_failLast c (Frame.errorJSON "kubeconfig not loaded")
      exact ⟨new, by simpa [StreamResources, hc, Conn.WriteJSONError] using h1, h2,
        fun _ => by simp [StreamResources, hc]⟩
    · cases hw : (WatchResources informer (c.Query "type" "pods") (c.Query "namespace" "default")
          (c.Query "labelSelector" "") (c.Query "fieldSelector" "")).err with
      | some err =>
        obtain ⟨new, h1, h2⟩ := single_write_failLast c (Frame.errorJSON err)
        exact ⟨new, by simpa [StreamResources, hc, hw, Conn.WriteJSONError] using h1, h2,
          fun _ => by simp [StreamResources, hc, hw]⟩
      | none =>
        obtain ⟨new, h1, h2, h3⟩ := relayLoop_failLast
          (WatchResources informer (c.Query "type" "pods") (c.Query "namespace" "default")
            (c.Query "labelSelector" "") (c.Query "fieldSelector" "")).chan c
        exact ⟨new, by simpa [StreamResources, hc, hw] using h1, h2,
          fun hex => by simpa [StreamResources, hc, hw] using h3 hex⟩
  · by_cases hc : h.K8sManager.Clientset = false
    · obtain ⟨new, h1, h2⟩ := single_write_failLast c (Frame.errorJSON "kubeconfig not loaded")
      exact ⟨new, by simpa [StreamLogs, hc, Conn.WriteJSONError] using h1, h2,
        fun _ => by simp [StreamLogs, hc]⟩
    · by_cases hpod : c.Query "pod" "" = ""
      · obtain ⟨new, h1, h2⟩ := single_write_failLast c (Frame.errorJSON "pod name is required")
        exact ⟨new, by simpa [StreamLogs, hc, hpod, Conn.WriteJSONError] using h1, h2,
          fun _ => by simp [StreamLogs, hc, hpod]⟩
      · cases hopen : openLogs (c.Query "namespace" "default") (c.Query "pod" "")
            { Container := c.Query "container" "", Follow := true, TailLines := some 100 } with
        | error err =>
          obtain ⟨new, h1, h2⟩ := single_write_failLast c (Frame.errorJSON err)
          exact ⟨new, by simpa [StreamLogs, hc, hpod, hopen, Conn.WriteJSONError] using h1, h2,
            fun _ => by simp [StreamLogs, hc, hpod, hopen]⟩
        | ok stream =>
          obtain ⟨new, h1, h2, h3⟩ := logLoop_failLast stream c (List.replicate logBufSize 0)
          exact ⟨new, by simpa [StreamLogs, hc, hpod, hopen] using h1, h2,
            fun hex => by simpa [StreamLogs, hc, hpod, hopen] using h3 hex⟩

/-- C13, the code at the failing input: the informer delivers three
notifications and the client is gone at the first write. The relay attempts
that one write, returns and cancels the watch, and nothing more is delivered;
but the sends of the two later events are never received, so the callback
sending the first of them stays blocked on the channel. -/
theorem C13_sender_left_blocked :
    (StreamResources ⟨⟨true, true⟩⟩
      (fun _ => [Notification.add ⟨"a"⟩, Notification.add ⟨"b"⟩, Notification.delete ⟨"a"⟩])
      ⟨[], [], "closed", [some "broken pipe"], []⟩) =
      { conn := ⟨[], [], "closed", [], [(Frame.eventJSON ⟨"ADDED", ⟨"a"⟩⟩, some "broken pipe")]⟩,
        calls := [RemoteCall.newInformer ⟨Api.Pods, some "default", "", ""⟩, RemoteCall.controllerRun],
        cancelled := true, exit := Exit.returned } ∧
    relayPending ⟨[], [], "closed", [some "broken pipe"], []⟩
      (eventChan [Notification.add ⟨"a"⟩, Notification.add ⟨"b"⟩, Notification.delete ⟨"a"⟩]) =
      [⟨"ADDED", ⟨"b"⟩⟩, ⟨"DELETED", ⟨"a"⟩⟩] := by
  decide

/-! ## The kind tables -/

/-- The keys of a looked-up association list. -/
theorem lookup_isSome_iff (l : List (String × String)) (k : String) :
    (l.lookup k).isSome = true ↔ k ∈ l.map Prod.fst := by
  induction l with
  | nil => simp
  | cons p l ih =>
    obtain ⟨a, b⟩ := p
    by_cases hk : k = a
    · subst hk; simp [List.lookup]
    · have hb : (k == a) = false := by simpa using hk
      simp [List.lookup, hb, ih, hk]

theorem ListResources_switch_isSome_iff (resourceType ns : String) (opts : ListOptions) :
    (ListResources.switch resourceType ns opts).isSome = true ↔ resourceType ∈ acceptedTypes := by
  unfold ListResources.switch
  split <;> simp_all [acceptedTypes]

theorem GetResource_switch_isSome_iff (resourceType ns name : String) :
    (GetResource.switch resourceType ns name).isSome = true ↔ resourceType ∈ acceptedTypes := by
  unfold GetResource.switch
  split <;> simp_all [acceptedTypes]

theorem GetResourceYaml_switch_isSome_iff (resourceType ns name : String) :
    (GetResourceYaml.switch resourceType ns name).isSome = true ↔
      resourceType ∈ acceptedTypes := by
  unfold GetResourceYaml.switch
  split <;> simp_all [acceptedTypes]

theorem DeleteResource_switch_isSome_iff (resourceType ns name : String) :
    (DeleteResource.switch resourceType ns name).isSome = true ↔
      resourceType ∈ acceptedTypes := by
  unfold DeleteResource.switch
  split <;> simp_all [acceptedTypes]

theorem kindMap_isSome_iff (resourceType : String) :
    (kindMap.lookup resourceType).isSome = true ↔ resourceType ∈ acceptedTypes := by
  rw [lookup_isSome_iff]
  exact Iff.rfl

/-- C16: the same identifiers are accepted by `getListerWatcher`, by the
switches of `ListResources`, `GetResource`, `GetResourceYaml` and
`DeleteResource`, and by the kind map of `GetEvents`; an identifier accepted
by `getListerWatcher` selects, in every table, the same accessor with the same
scope, and in the kind map the kind of that accessor; each alias selects in
every table what its canonical name selects; and with a loaded kubeconfig the
four handlers answer 404 exactly for the identifiers that are not accepted. -/
theorem C16_kind_tables_agree (resourceType ns name labelSelector fieldSelector : String)
    (opts : ListOptions) :
    (((getListerWatcher resourceType ns labelSelector fieldSelector).isOk = true ↔
        (ListResources.switch resourceType ns opts).isSome = true) ∧
      ((getListerWatcher resourceType ns labelSelector fieldSelector).isOk = true ↔
        (GetResource.switch resourceType ns name).isSome = true) ∧
      ((getListerWatcher resourceType ns labelSelector fieldSelector).isOk = true ↔
        (GetResourceYaml.switch resourceType ns name).isSome = true) ∧
      ((getListerWatcher resourceType ns labelSelector fieldSelector).isOk = true ↔
        (DeleteResource.switch resourceType ns name).isSome = true) ∧
      ((getListerWatcher resourceType ns labelSelector fieldSelector).isOk = true ↔
        (kindMap.lookup resourceType).isSome = true)) ∧
    (∀ lw : ListWatch,
      getListerWatcher resourceType ns labelSelector fieldSelector = Except.ok lw →
      ListResources.switch resourceType ns opts = some (RemoteCall.list lw.api lw.ns opts) ∧
      GetResource.switch resourceType ns name = some (RemoteCall.get lw.api lw.ns name) ∧
      GetResourceYaml.switch resourceType ns name = some (RemoteCall.get lw.api lw.ns name) ∧
      DeleteResource.switch resourceType ns name = some (RemoteCall.delete lw.api lw.ns name) ∧
      kindMap.lookup resourceType = some (kindName lw.api)) ∧
    (∀ p ∈ [("ns", "namespaces"), ("no", "nodes"), ("cm", "configmaps"), ("sec", "secrets"),
        ("ing", "ingresses"), ("pv", "persistentvolumes"), ("pvc", "persistentvolumeclaims")],
      getListerWatcher p.1 ns labelSelector fieldSelector =
        getListerWatcher p.2 ns labelSelector fieldSelector ∧
      ListResources.switch p.1 ns opts = ListResources.switch p.2 ns opts ∧
      GetResource.switch p.1 ns name = GetResource.switch p.2 ns name ∧
      GetResourceYaml.switch p.1 ns name = GetResourceYaml.switch p.2 ns name ∧
      DeleteResource.switch p.1 ns name = DeleteResource.switch p.2 ns name ∧
      kindMap.lookup p.1 = kindMap.lookup p.2) ∧
    (∀ (h : Handler) (remote : RemoteCall → Except String Obj)
        (marshal : Obj → Except String String) (c : Ctx),
      h.K8sManager.Clientset = true → c.Params "type" = resourceType →
      ((ListResources h remote c).status = 404 ↔ resourceType ∉ acceptedTypes) ∧
      ((GetResource h remote c).status = 404 ↔ resourceType ∉ acceptedTypes) ∧
      ((GetResourceYaml h remote marshal c).status = 404 ↔ resourceType ∉ acceptedTypes) ∧
      ((DeleteResource h remote c).status = 404 ↔ resourceType ∉ acceptedTypes)) := by
  have hw := getListerWatcher_isOk_iff resourceType ns labelSelector fieldSelector
  refine ⟨⟨?_, ?_, ?_, ?_, ?_⟩, ?_, ?_, ?_⟩
  · rw [hw, ListResources_switch_isSome_iff]
  · rw [hw, GetResource_switch_isSome_iff]
  · rw [hw, GetResourceYaml_switch_isSome_iff]
  · rw [hw, DeleteResource_switch_isSome_iff]
  · rw [hw, kindMap_isSome_iff]
  · intro lw hlw
    unfold getListerWatcher at hlw
    split at hlw <;> first
      | (cases hlw; exact ⟨rfl, rfl, rfl, rfl, rfl⟩)
      | simp at hlw
  · intro p hp
    simp only [List.mem_cons, List.mem_singleton, List.not_mem_nil, or_false] at hp
    rcases hp with rfl | rfl | rfl | rfl | rfl | rfl | rfl <;>
      exact ⟨rfl, rfl, rfl, rfl, rfl, rfl⟩
  · intro h remote marshal c hset hty
    refine ⟨?_, ?_, ?_, ?_⟩
    · rw [← ListResources_switch_isSome_iff resourceType (c.Query "namespace" "default")
        ⟨c.Query "labelSelector" "", c.Query "fieldSelector" ""⟩]
      simp only [ListResources, hset, hty, Bool.true_eq_false, if_false]
      cases ListResources.switch resourceType (c.Query "namespace" "default")
          ⟨c.Query "labelSelector" "", c.Query "fieldSelector" ""⟩ with
      | none => simp
      | some call => simp only []; split <;> simp
    · rw [← GetResource_switch_isSome_iff resourceType (c.Query "namespace" "default")
        (c.Params "name")]
      simp only [GetResource, hset, hty, Bool.true_eq_false, if_false]
      cases GetResource.switch resourceType (c.Query "namespace" "default") (c.Params "name") with
      | none => simp
      | some call => simp only []; split <;> simp
    · rw [← GetResourceYaml_switch_isSome_iff resourceType (c.Query "namespace" "default")
        (c.Params "name")]
      simp only [GetResourceYaml, hset, hty, Bool.true_eq_false, if_false]
      cases GetResourceYaml.switch resourceType (c.Query "namespace" "default")
          (c.Params "name") with
      | none => simp
      | some call =>
        simp only []
        split
        · simp
        · split <;> simp
    · rw [← DeleteResource_switch_isSome_iff resourceType (c.Query "namespace" "default")
        (c.Params "name")]
      simp only [DeleteResource, hset, hty, Bool.true_eq_false, if_false]
      cases DeleteResource.switch resourceType (c.Query "namespace" "default")
          (c.Params "name") with
      | none => simp
      | some call => simp only []; split <;> simp

/-- C17 fails as stated: before a kubeconfig is loaded, `GetEvents` asked for
the events of a resource of type `po`, which is not a key of its kind map,
answers 412 and not 400. -/
theorem C17_unloaded_kubeconfig_counterexample :
    "po" ∉ kindMap.map Prod.fst ∧
    GetEvents ⟨⟨false, false⟩⟩ (fun _ => Except.ok ⟨"events"⟩)
      ⟨[("type", "po"), ("name", "web-0")], []⟩ =
      { status := 412, body := Body.error "kubeconfig not loaded", calls := [] } ∧
    (GetEvents ⟨⟨false, false⟩⟩ (fun _ => Except.ok ⟨"events"⟩)
      ⟨[("type", "po"), ("name", "web-0")], []⟩).status ≠ 400 := by
  decide

/-- C17 as amended: while no kubeconfig is loaded `GetEvents` answers 412 with
the error "kubeconfig not loaded" for every type and queries nothing; with a
kubeconfig loaded it answers 400 exactly when the type is not a key of its
kind map, and then queries nothing, and for a type the map sends to the kind
`K` it makes one query, for events in the requested namespace, with the field
selector `involvedObject.kind=K,involvedObject.name=<name>` when the type is
one of namespaces, ns, nodes, no, persistentvolumes, pv, and that selector
followed by `,involvedObject.namespace=<namespace>` for every other type. -/
theorem C17_events_field_selector (h : Handler) (remote : RemoteCall → Except String Obj)
    (c : Ctx) :
    (h.K8sManager.Clientset = false →
      (GetEvents h remote c).status = 412 ∧
      (GetEvents h remote c).body = Body.error "kubeconfig not loaded" ∧
      (GetEvents h remote c).calls = []) ∧
    (h.K8sManager.Clientset = true →
      ((GetEvents h remote c).status = 400 ↔ c.Params "type" ∉ kindMap.map Prod.fst) ∧
      (c.Params "type" ∉ kindMap.map Prod.fst → (GetEvents h remote c).calls = []) ∧
      (∀ K : String, kindMap.lookup (c.Params "type") = some K →
        (GetEvents h remote c).calls =
          [RemoteCall.listEvents (c.Query "namespace" "default")
            { LabelSelector := "",
              FieldSelector :=
                if c.Params "type" ∈ ["namespaces", "ns", "nodes", "no", "persistentvolumes", "pv"]
                then "involvedObject.kind=" ++ K ++ ",involvedObject.name=" ++ c.Params "name"
                else "involvedObject.kind=" ++ K ++ ",involvedObject.name=" ++ c.Params "name" ++
                  ",involvedObject.namespace=" ++ c.Query "namespace" "default" }])) := by
  have hkey := lookup_isSome_iff kindMap (c.Params "type")
  refine ⟨fun hnil => by simp [GetEvents, hnil], fun hset => ⟨?_, ?_, ?_⟩⟩
  · rw [← hkey]
    simp only [GetEvents, hset, Bool.true_eq_false, if_false]
    cases kindMap.lookup (c.Params "type") with
    | none => simp
    | some K =>
      simp only
      split <;> simp
  · intro hnot
    rw [← hkey] at hnot
    simp only [GetEvents, hset, Bool.true_eq_false, if_false]
    cases hk : kindMap.lookup (c.Params "type") with
    | none => rfl
    | some K => simp [hk] at hnot
  · intro K hK
    simp only [GetEvents, hset, Bool.true_eq_false, if_false, hK]
    split <;> simp [List.mem_cons]

/-- C17 as amended, for the events of namespace `kube-system` asked for under
the alias `ns` with a kubeconfig loaded. -/
theorem C17_events_field_selector_witness :
    (⟨⟨true, true⟩⟩ : Handler).K8sManager.Clientset = true ∧
    (GetEvents ⟨⟨true, true⟩⟩ (fun _ => Except.ok ⟨"events"⟩)
      ⟨[("type", "ns"), ("name", "kube-system")], []⟩).calls =
      [RemoteCall.listEvents "default"
        ⟨"", "involvedObject.kind=Namespace,involvedObject.name=kube-system"⟩] :=
  ⟨rfl, ((C17_events_field_selector ⟨⟨true, true⟩⟩ (fun _ => Except.ok ⟨"events"⟩)
    ⟨[("type", "ns"), ("name", "kube-system")], []⟩).2 rfl).2.2 "Namespace" rfl⟩

/-! ## Discovery -/

/-- A list occurs inside another exactly when it is the window of its own
length at some index that leaves room for it. -/
theorem infix_iff_window (s substr : List Byte) :
    substr <:+: s ↔
      ∃ j, j + substr.length ≤ s.length ∧ (s.drop j).take substr.length = substr := by
  constructor
  · rintro ⟨a, b, rfl⟩
    refine ⟨a.length, by simp, ?_⟩
    simp [List.append_assoc]
  · rintro ⟨j, _, hj⟩
    refine ⟨s.take j, (s.drop j).drop substr.length, ?_⟩
    have h1 := List.take_append_drop substr.length (s.drop j)
    rw [hj] at h1
    rw [List.append_assoc, h1, List.take_append_drop]

/-- An in-range slice is the window it denotes. -/
theorem slice_window (s : List Byte) (i len : Nat) (h : i + len ≤ s.length) :
    slice s i (i + len) = some ((s.drop i).take len) := by
  simp [slice, h]

/-- The loop of `contains`, started where all its remaining windows are in
range, never panics and finds a match exactly when one of these windows is
`substr`. -/
theorem containsLoop_spec (s substr : List Byte) (n : Nat) : ∀ i : Nat,
    i + n + substr.length ≤ s.length + 1 →
    ∃ b : Bool, containsLoop s substr n i = some b ∧
      (b = true ↔ ∃ j, i ≤ j ∧ j < i + n ∧ (s.drop j).take substr.length = substr) := by
  induction n with
  | zero =>
    intro i _
    refine ⟨false, rfl, ?_⟩
    constructor
    · intro h; cases h
    · rintro ⟨j, h1, h2, _⟩
      omega
  | succ n ih =>
    intro i hi
    have hin : i + substr.length ≤ s.length := by omega
    by_cases hm : (s.drop i).take substr.length = substr
    · refine ⟨true, ?_, by simpa using ⟨i, Nat.le_refl i, by omega, hm⟩⟩
      simp [containsLoop, slice_window s i substr.length hin, hm]
    · obtain ⟨b, hb, hiff⟩ := ih (i + 1) (by omega)
      refine ⟨b, ?_, ?_⟩
      · simp [containsLoop, slice_window s i substr.length hin, hm, hb]
      · rw [hiff]
        constructor
        · rintro ⟨j, h1, h2, h3⟩
          exact ⟨j, by omega, by omega, h3⟩
        · rintro ⟨j, h1, h2, h3⟩
          have hne : j ≠ i := fun h => hm (h ▸ h3)
          exact ⟨j, by omega, by omega, h3⟩

/-- `contains` never panics and answers whether `substr` occurs in `s`. -/
theorem contains_spec (s substr : List Byte) :
    ∃ b : Bool, contains s substr = some b ∧ (b = true ↔ substr <:+: s) := by
  by_cases hlen : substr.length ≤ s.length
  · have hn : (((s.length : Int) - (substr.length : Int) + 1).toNat) =
        s.length - substr.length + 1 := by omega
    obtain ⟨b, hb, hiff⟩ := containsLoop_spec s substr (s.length - substr.length + 1) 0 (by omega)
    refine ⟨b, by rw [contains, hn]; exact hb, ?_⟩
    rw [hiff, infix_iff_window]
    constructor
    · rintro ⟨j, _, h2, h3⟩
      exact ⟨j, by omega, h3⟩
    · rintro ⟨j, h1, h3⟩
      exact ⟨j, Nat.zero_le j, by omega, h3⟩
  · have hn : (((s.length : Int) - (substr.length : Int) + 1).toNat) = 0 := by omega
    refine ⟨false, by rw [contains, hn]; rfl, ?_⟩
    constructor
    · intro h; cases h
    · intro h
      exact absurd h.length_le hlen

/-- The inner loop of `GetAPIResources` appends, in order, a copy of every
resource whose name does not contain "/". -/
theorem appendResources_spec (l : List MetaAPIResource) : ∀ acc : List APIResource,
    appendResources acc l =
      some (acc ++ (l.filter (fun r => !decide (bytesOf "/" <:+: bytesOf r.Name))).map
        (fun r => ⟨r.Name, r.Kind, r.Namespaced, r.Verbs, r.ShortNames⟩)) := by
  induction l with
  | nil => intro acc; simp [appendResources]
  | cons res l ih =>
    intro acc
    obtain ⟨b, hb, hiff⟩ := contains_spec (bytesOf res.Name) (bytesOf "/")
    cases b with
    | true =>
      have hin : bytesOf "/" <:+: bytesOf res.Name := hiff.mp rfl
      simp [appendResources, hb, ih, List.filter_cons, hin]
    | false =>
      have hin : ¬ bytesOf "/" <:+: bytesOf res.Name := fun h => by simpa using hiff.mpr h
      simp [appendResources, hb, ih, List.filter_cons, hin]

/-- The outer loop of `GetAPIResources` does the same over all groups. -/
theorem appendGroups_spec (groups : List APIResourceList) : ∀ acc : List APIResource,
    appendGroups acc groups =
      some (acc ++ ((groups.flatMap (fun g => g.APIResources)).filter
        (fun r => !decide (bytesOf "/" <:+: bytesOf r.Name))).map
        (fun r => ⟨r.Name, r.Kind, r.Namespaced, r.Verbs, r.ShortNames⟩)) := by
  induction groups with
  | nil => intro acc; simp [appendGroups]
  | cons g groups ih =>
    intro acc
    simp [appendGroups, appendResources_spec, ih, List.flatMap_cons, List.filter_append]

/-- C18: `contains(s, substr)` never indexes out of range and is true exactly
when `substr` occurs as a contiguous run of `s` (true for an empty `substr`,
false for a `substr` longer than `s`); and for every discovery result, with
the clientset initialized, `GetAPIResources` returns without error exactly
the resources whose name does not contain "/", in discovery order, each with
its name, kind, namespaced flag, verbs and short names unchanged. -/
theorem C18_contains_and_discovery :
    (∀ s substr : List Byte,
      (contains s substr = some true ↔ substr <:+: s) ∧
      (contains s substr = some false ↔ ¬ substr <:+: s)) ∧
    (∀ s : List Byte, contains s [] = some true) ∧
    (∀ s substr : List Byte, s.length < substr.length → contains s substr = some false) ∧
    (∀ (cm : ClientManager) (resourceLists : List APIResourceList), cm.Clientset = true →
      GetAPIResources cm (Except.ok resourceLists) =
        some (Except.ok (((resourceLists.flatMap (fun g => g.APIResources)).filter
          (fun r => !decide (bytesOf "/" <:+: bytesOf r.Name))).map
          (fun r => ⟨r.Name, r.Kind, r.Namespaced, r.Verbs, r.ShortNames⟩)))) := by
  have hboth : ∀ s substr : List Byte,
      (contains s substr = some true ↔ substr <:+: s) ∧
      (contains s substr = some false ↔ ¬ substr <:+: s) := by
    intro s substr
    obtain ⟨b, hb, hiff⟩ := contains_spec s substr
    cases b with
    | true =>
      have hin : substr <:+: s := hiff.mp rfl
      simp [hb, hin]
    | false =>
      have hin : ¬ substr <:+: s := fun h => by simpa using hiff.mpr h
      simp [hb, hin]
  refine ⟨hboth, ?_, ?_, ?_⟩
  · intro s
    exact (hboth s []).1.mpr List.nil_infix
  · intro s substr hlt
    exact (hboth s substr).2.mpr (fun h => absurd h.length_le (by omega))
  · intro cm resourceLists hset
    simp [GetAPIResources, hset, appendGroups_spec]

/-- The discovery result of a cluster with pods, their log subresource and
deployments: the subresource is dropped and the order kept. -/
theorem GetAPIResources_example :
    GetAPIResources ⟨true, true⟩ (Except.ok
      [⟨[⟨"pods", "Pod", true, ["get", "list"], ["po"]⟩, ⟨"pods/log", "Pod", true, ["get"], []⟩]⟩,
       ⟨[⟨"deployments", "Deployment", true, ["get"], ["deploy"]⟩]⟩]) =
      some (Except.ok [⟨"pods", "Pod", true, ["get", "list"], ["po"]⟩,
        ⟨"deployments", "Deployment", true, ["get"], ["deploy"]⟩]) := by
  decide

end WebK9
